import Mathlib

/-!
Verification development for the architecture-diagram pipeline
(parser, auto-layout, Lottie animation generator).

Shallow embedding conventions:
* Python floats are modelled as exact rationals; all arithmetic the
  pipeline performs on the inputs considered here (additions,
  subtractions, multiplications, halvings, min and max) is exact, so the
  rational model agrees with the float semantics on those inputs.  The
  single irrational operation, the square root inside the arrow-geometry
  computation, is abstracted as an explicit function parameter.
* Python dicts are modelled as insertion-ordered association lists;
  inserting an existing key overwrites the value in place, a new key is
  appended.  Python sets of grid cells are modelled as duplicate-free
  lists where only membership is consumed.
* The regular-expression statement patterns are transcribed as
  character-list matchers.  The character class for word characters is
  modelled over ASCII, whitespace as the six ASCII whitespace
  characters; the patterns have no end anchors and every variable piece
  stops at a delimiter excluded from it, so greedy left-to-right
  matching without backtracking is equivalent to the regex semantics.
-/

namespace Arch

/- Std's rational arithmetic is tagged irreducible, which blocks
kernel evaluation in concrete witnesses; restore the default
reducibility inside this development. -/
attribute [local semireducible] Rat.mul Rat.add Rat.sub Rat.inv

abbrev Q := Rat

inductive Direction where
  | L
  | R
  | T
  | B
deriving DecidableEq, Repr

/-- Horizontal layer for flow diagrams (dataclass Layer). -/
structure Layer where
  id : String
  icon : Option String := none
  label : Option String := none
  order : Int := 0
  x : Q := 0
  y : Q := 0
  width : Q := 0
  height : Q := 0
deriving DecidableEq, Repr

/-- dataclass Group. -/
structure Group where
  id : String
  icon : Option String := none
  label : Option String := none
  parent : Option String := none
  x : Q := 0
  y : Q := 0
  width : Q := 0
  height : Q := 0
deriving DecidableEq, Repr

/-- dataclass Service. -/
structure Service where
  id : String
  icon : Option String := none
  label : Option String := none
  parent : Option String := none
  x : Q := 0
  y : Q := 0
  width : Q := 80
  height : Q := 80
deriving DecidableEq, Repr

/-- dataclass Junction. -/
structure Junction where
  id : String
  parent : Option String := none
  x : Q := 0
  y : Q := 0
  width : Q := 20
  height : Q := 20
deriving DecidableEq, Repr

/-- dataclass Edge. -/
structure Edge where
  source_id : String
  source_dir : Direction
  target_id : String
  target_dir : Direction
  label : Option String := none
  has_arrow : Bool := true
deriving DecidableEq, Repr

/-- Insertion-ordered association list standing for a Python dict. -/
abbrev Dict (α : Type) := List (String × α)

/-- Dict lookup (`m[k]` / `k in m`). -/
def dictGet {α : Type} (m : Dict α) (k : String) : Option α :=
  (m.find? (fun p => p.1 = k)).map (fun p => p.2)

/-- `k in m` for a Python dict. -/
def dictHas {α : Type} (m : Dict α) (k : String) : Bool :=
  m.any (fun p => p.1 = k)

/-- `m[k] = v` for a Python dict: overwrite in place, else append. -/
def dictPut {α : Type} (m : Dict α) (k : String) (v : α) : Dict α :=
  if dictHas m k then
    m.map (fun p => if p.1 = k then (k, v) else p)
  else
    m ++ [(k, v)]

/-- dataclass ArchitectureDiagram. -/
structure ArchitectureDiagram where
  groups : Dict Group := []
  services : Dict Service := []
  junctions : Dict Junction := []
  edges : List Edge := []
  layers : Dict Layer := []
deriving DecidableEq, Repr

/-- Uniform view of the four node kinds, as returned by get_node. -/
inductive NodeRef where
  | svc (s : Service)
  | jct (j : Junction)
  | grp (g : Group)
  | lyr (l : Layer)
deriving DecidableEq, Repr

def NodeRef.x : NodeRef → Q
  | .svc s => s.x
  | .jct j => j.x
  | .grp g => g.x
  | .lyr l => l.x

def NodeRef.y : NodeRef → Q
  | .svc s => s.y
  | .jct j => j.y
  | .grp g => g.y
  | .lyr l => l.y

def NodeRef.width : NodeRef → Q
  | .svc s => s.width
  | .jct j => j.width
  | .grp g => g.width
  | .lyr l => l.width

def NodeRef.height : NodeRef → Q
  | .svc s => s.height
  | .jct j => j.height
  | .grp g => g.height
  | .lyr l => l.height

namespace ArchitectureDiagram

/-- ArchitectureDiagram.get_node: services, junctions, groups, layers,
in that priority order. -/
def get_node (d : ArchitectureDiagram) (node_id : String) : Option NodeRef :=
  match dictGet d.services node_id with
  | some s => some (.svc s)
  | none =>
    match dictGet d.junctions node_id with
    | some j => some (.jct j)
    | none =>
      match dictGet d.groups node_id with
      | some g => some (.grp g)
      | none =>
        match dictGet d.layers node_id with
        | some l => some (.lyr l)
        | none => none

/-- ArchitectureDiagram.get_children: ids of services, then junctions,
then groups whose parent field equals parent_id. -/
def get_children (d : ArchitectureDiagram) (parent_id : String) : List String :=
  ((d.services.filter (fun p => p.2.parent = some parent_id)).map (fun p => p.2.id))
    ++ ((d.junctions.filter (fun p => p.2.parent = some parent_id)).map (fun p => p.2.id))
    ++ ((d.groups.filter (fun p => p.2.parent = some parent_id)).map (fun p => p.2.id))

/-- ArchitectureDiagram.is_layered. -/
def is_layered (d : ArchitectureDiagram) : Bool :=
  d.layers.length > 0

end ArchitectureDiagram

/-! ## Parser

`ArchitectureParser`: line-oriented matching of the five statement
patterns, transcribed from the anchored regular expressions. -/

/-- Python `\w` over ASCII: letters, digits, underscore. -/
def isWordChar (c : Char) : Bool :=
  c.isAlpha || c.isDigit || c = '_'

/-- Python `\s` over ASCII. -/
def isPySpace (c : Char) : Bool :=
  c = ' ' || c = '\t' || c = '\n' || c = '\r' || c = '\x0b' || c = '\x0c'

/-- `\w+` (greedy, at least one character). -/
def takeWord (cs : List Char) : Option (String × List Char) :=
  let w := cs.takeWhile isWordChar
  if w.isEmpty then none else some (String.mk w, cs.dropWhile isWordChar)

/-- `\s+`. -/
def skipWs1 (cs : List Char) : Option (List Char) :=
  match cs with
  | [] => none
  | c :: rest => if isPySpace c then some (rest.dropWhile isPySpace) else none

/-- `\s*`. -/
def skipWs (cs : List Char) : List Char :=
  cs.dropWhile isPySpace

/-- Literal string match. -/
def litStr (s : String) (cs : List Char) : Option (List Char) :=
  if s.toList.isPrefixOf cs then some (cs.drop s.length) else none

/-- `(?:\(([^)]+)\))?` — optional parenthesised icon. -/
def optParen (cs : List Char) : Option String × List Char :=
  match cs with
  | '(' :: rest =>
    let body := rest.takeWhile (fun c => c ≠ ')')
    let after := rest.dropWhile (fun c => c ≠ ')')
    match after with
    | ')' :: tail => if body.isEmpty then (none, cs) else (some (String.mk body), tail)
    | _ => (none, cs)
  | _ => (none, cs)

/-- `(?:\[([^\]]+)\])?` — optional bracketed label. -/
def optBracket (cs : List Char) : Option String × List Char :=
  match cs with
  | '[' :: rest =>
    let body := rest.takeWhile (fun c => c ≠ ']')
    let after := rest.dropWhile (fun c => c ≠ ']')
    match after with
    | ']' :: tail => if body.isEmpty then (none, cs) else (some (String.mk body), tail)
    | _ => (none, cs)
  | _ => (none, cs)

/-- `(?:\s+in\s+(\w+))?` — optional parent clause. -/
def optInClause (cs : List Char) : Option String × List Char :=
  match skipWs1 cs with
  | none => (none, cs)
  | some afterWs =>
    match litStr "in" afterWs with
    | none => (none, cs)
    | some afterIn =>
      match skipWs1 afterIn with
      | none => (none, cs)
      | some afterWs2 =>
        match takeWord afterWs2 with
        | none => (none, cs)
        | some (w, tail) => (some w, tail)

/-- PATTERN_LAYER applied with re.match (prefix match). -/
def matchLayer (line : String) : Option (String × Option String × Option String) :=
  match litStr "layer" line.toList with
  | none => none
  | some rest =>
    match skipWs1 rest with
    | none => none
    | some rest2 =>
      match takeWord rest2 with
      | none => none
      | some (id_, rest3) =>
        let (icon, rest4) := optParen rest3
        let (label, _) := optBracket rest4
        some (id_, icon, label)

/-- PATTERN_GROUP applied with re.match. -/
def matchGroup (line : String) :
    Option (String × Option String × Option String × Option String) :=
  match litStr "group" line.toList with
  | none => none
  | some rest =>
    match skipWs1 rest with
    | none => none
    | some rest2 =>
      match takeWord rest2 with
      | none => none
      | some (id_, rest3) =>
        let (icon, rest4) := optParen rest3
        let (label, rest5) := optBracket rest4
        let (parent, _) := optInClause rest5
        some (id_, icon, label, parent)

/-- PATTERN_SERVICE applied with re.match. -/
def matchService (line : String) :
    Option (String × Option String × Option String × Option String) :=
  match litStr "service" line.toList with
  | none => none
  | some rest =>
    match skipWs1 rest with
    | none => none
    | some rest2 =>
      match takeWord rest2 with
      | none => none
      | some (id_, rest3) =>
        let (icon, rest4) := optParen rest3
        let (label, rest5) := optBracket rest4
        let (parent, _) := optInClause rest5
        some (id_, icon, label, parent)

/-- PATTERN_JUNCTION applied with re.match. -/
def matchJunction (line : String) : Option (String × Option String) :=
  match litStr "junction" line.toList with
  | none => none
  | some rest =>
    match skipWs1 rest with
    | none => none
    | some rest2 =>
      match takeWord rest2 with
      | none => none
      | some (id_, rest3) =>
        let (parent, _) := optInClause rest3
        some (id_, parent)

/-- Direction letter class `[LRTB]`. -/
def matchDirChar (cs : List Char) : Option (Direction × List Char) :=
  match cs with
  | 'L' :: rest => some (.L, rest)
  | 'R' :: rest => some (.R, rest)
  | 'T' :: rest => some (.T, rest)
  | 'B' :: rest => some (.B, rest)
  | _ => none

/-- `(--?>?)` — connector token; returns whether it contains `>`. -/
def matchArrowToken (cs : List Char) : Option (Bool × List Char) :=
  match cs with
  | '-' :: rest =>
    let (rest2) := match rest with
      | '-' :: tail => tail
      | _ => rest
    match rest2 with
    | '>' :: tail => some (true, tail)
    | _ => some (false, rest2)
  | _ => none

/-- PATTERN_EDGE applied with re.match. -/
def matchEdge (line : String) :
    Option (String × Direction × Bool × Direction × String) :=
  match takeWord line.toList with
  | none => none
  | some (src, rest) =>
    match rest with
    | ':' :: rest2 =>
      match matchDirChar rest2 with
      | none => none
      | some (sdir, rest3) =>
        match matchArrowToken (skipWs rest3) with
        | none => none
        | some (hasArrow, rest4) =>
          match matchDirChar (skipWs rest4) with
          | none => none
          | some (tdir, rest5) =>
            match rest5 with
            | ':' :: rest6 =>
              match takeWord rest6 with
              | none => none
              | some (tgt, _) => some (src, sdir, hasArrow, tdir, tgt)
            | _ => none
    | _ => none

/-- Python str.startswith, over the character list (kernel-reducible,
unlike the String primitive). -/
def pyStartsWith (t pre : String) : Bool :=
  pre.toList.isPrefixOf t.toList

/-- Python str.strip over ASCII whitespace. -/
def pyStrip (s : String) : String :=
  String.mk (((s.toList.dropWhile isPySpace).reverse.dropWhile isPySpace).reverse)

/-- One iteration of ArchitectureParser.parse: process a single line
against the skip rules and the five patterns in order, threading the
layer-order counter. -/
def parseLine (st : ArchitectureDiagram × Int) (rawLine : String) :
    ArchitectureDiagram × Int :=
  let diagram := st.1
  let layer_order := st.2
  let line := pyStrip rawLine
  if line = "" then st
  else if pyStartsWith line "#" then st
  else if pyStartsWith line "architecture" then st
  else
    match matchLayer line with
    | some (id_, icon, label) =>
      ({ diagram with
          layers := dictPut diagram.layers id_
            { id := id_, icon := icon, label := label, order := layer_order } },
        layer_order + 1)
    | none =>
      match matchGroup line with
      | some (id_, icon, label, parent) =>
        ({ diagram with
            groups := dictPut diagram.groups id_
              { id := id_, icon := icon, label := label, parent := parent } },
          layer_order)
      | none =>
        match matchService line with
        | some (id_, icon, label, parent) =>
          ({ diagram with
              services := dictPut diagram.services id_
                { id := id_, icon := icon, label := label, parent := parent } },
            layer_order)
        | none =>
          match matchJunction line with
          | some (id_, parent) =>
            ({ diagram with
                junctions := dictPut diagram.junctions id_
                  { id := id_, parent := parent } },
              layer_order)
          | none =>
            match matchEdge line with
            | some (src, sdir, hasArrow, tdir, tgt) =>
              ({ diagram with
                  edges := diagram.edges ++
                    [{ source_id := src, source_dir := sdir,
                       target_id := tgt, target_dir := tdir,
                       has_arrow := hasArrow }] },
                layer_order)
            | none => st

/-- ArchitectureParser.parse over the list of input lines
(`text.strip().split("\n")` in the source); a total function. -/
def parse (lines : List String) : ArchitectureDiagram :=
  (lines.foldl parseLine ({}, 0)).1

/-! ## Layout engine

`ArchitectureLayout`: constraint-based auto-layout. -/

/-- dataclass LayoutConfig, with the documented defaults. -/
structure LayoutConfig where
  node_width : Q := 80
  node_height : Q := 80
  node_spacing_x : Q := 120
  node_spacing_y : Q := 100
  group_padding : Q := 40
  canvas_padding : Q := 50
  layer_height : Q := 140
  layer_spacing : Q := 60
  layer_label_width : Q := 120
deriving DecidableEq, Repr

/-- A grid cell (row, col). -/
abbrev Cell := Int × Int

/-- Adjacency list: node id to (neighbor id, own port, neighbor port). -/
abbrev AdjList := Dict (List (String × Direction × Direction))

def adjEnsure (adj : AdjList) (k : String) : AdjList :=
  if dictHas adj k then adj else adj ++ [(k, [])]

def adjAppend (adj : AdjList) (k : String) (e : String × Direction × Direction) :
    AdjList :=
  adj.map (fun p => if p.1 = k then (p.1, p.2 ++ [e]) else p)

/-- ArchitectureLayout._build_adjacency. -/
def build_adjacency (d : ArchitectureDiagram) : AdjList :=
  d.edges.foldl
    (fun adj e =>
      let adj := adjEnsure adj e.source_id
      let adj := adjEnsure adj e.target_id
      let adj := adjAppend adj e.source_id (e.target_id, e.source_dir, e.target_dir)
      adjAppend adj e.target_id (e.source_id, e.target_dir, e.source_dir))
    []

/-- One probe move of the bounded collision search, cycling
column+1, row+1, column-1, row-1. -/
def spiralStep (attempts : Nat) (c : Cell) : Cell :=
  if attempts % 4 = 0 then (c.1, c.2 + 1)
  else if attempts % 4 = 1 then (c.1 + 1, c.2)
  else if attempts % 4 = 2 then (c.1, c.2 - 1)
  else (c.1 - 1, c.2)

/-- The `while (new_row, new_col) in occupied and attempts < 20` loop of
_get_neighbor_position; returns the final cell and the attempts used.
The remaining budget `fuel` stands for `20 - attempts` (structural
recursion on it is definitionally the while condition `attempts < 20`),
so the loop is entered with fuel 20 and attempts 0. -/
def spiralLoop (occupied : List Cell) : Nat → Nat → Cell → Cell × Nat
  | 0, attempts, c => (c, attempts)
  | fuel + 1, attempts, c =>
    if c ∈ occupied then spiralLoop occupied fuel (attempts + 1) (spiralStep attempts c)
    else (c, attempts)

/-- ArchitectureLayout._get_neighbor_position.  The to_dir argument is
present in the source signature but unused by the body. -/
def get_neighbor_position (row col : Int) (from_dir : Direction)
    (_to_dir : Direction) (occupied : List Cell) : Cell × Nat :=
  let delta_col : Int := if from_dir = .R then 1 else if from_dir = .L then -1 else 0
  let delta_row : Int := if from_dir = .B then 1 else if from_dir = .T then -1 else 0
  spiralLoop occupied 20 0 (row + delta_row, col + delta_col)

/-- The row-major successor used by _find_empty_position: column + 1,
wrapping to the next row when the column index exceeds 10. -/
def scanNext (c : Cell) : Cell :=
  let col := c.2 + 1
  if col > 10 then (c.1 + 1, 0) else (c.1, col)

/-- The `while (row, col) in occupied` loop of _find_empty_position,
with fuel; the fuel supplied below always suffices (each probed cell is
distinct, so at most `occupied.length` probes can fail). -/
def scanLoop (occupied : List Cell) : Nat → Cell → Cell
  | 0, c => c
  | fuel + 1, c => if c ∈ occupied then scanLoop occupied fuel (scanNext c) else c

/-- ArchitectureLayout._find_empty_position. -/
def find_empty_position (occupied : List Cell) : Cell :=
  scanLoop occupied (occupied.length + 1) (0, 0)

/-- Python set insertion for grid cells. -/
def occInsert (c : Cell) (occ : List Cell) : List Cell :=
  if c ∈ occ then occ else occ ++ [c]

/-- Python set insertion for node ids. -/
def strInsert (s : String) (l : List String) : List String :=
  if s ∈ l then l else l ++ [s]

/-- The mutable state of the BFS in _assign_grid_positions, plus an
instrumentation flag: `collided` records whether some collision search
accepted an already-occupied cell (possible only when its 20-attempt
budget was exhausted, see spiralLoop_mem_imp_exhausted). -/
structure GridState where
  grid_pos : Dict Cell
  visited : List String
  occupied : List Cell
  queue : List (String × Cell)
  collided : Bool
deriving DecidableEq, Repr

/-- One neighbor of the inner BFS loop: skip if visited, otherwise
assign the collision-resolved cell and enqueue. -/
def neighborStep (cell : Cell) (st : GridState)
    (e : String × Direction × Direction) : GridState :=
  if e.1 ∈ st.visited then st
  else
    let r := get_neighbor_position cell.1 cell.2 e.2.1 e.2.2 st.occupied
    { grid_pos := dictPut st.grid_pos e.1 r.1,
      visited := strInsert e.1 st.visited,
      occupied := occInsert r.1 st.occupied,
      queue := st.queue ++ [(e.1, r.1)],
      collided := st.collided || decide (r.1 ∈ st.occupied) }

/-- The inner `for neighbor_id, from_dir, to_dir in adj.get(node_id, [])`
loop of the BFS. -/
def processNeighbors (cell : Cell)
    (entries : List (String × Direction × Direction)) (st : GridState) :
    GridState :=
  entries.foldl (neighborStep cell) st

/-- The `while queue` loop of _assign_grid_positions, with fuel.  The
fuel supplied below always suffices: every enqueued id is added to
`visited` at enqueue time and all enqueueable ids are adjacency keys,
so the number of dequeues is bounded (bfsLoop_fuel_sufficient). -/
def bfsLoop (adj : AdjList) : Nat → GridState → GridState
  | 0, st => st
  | fuel + 1, st =>
    match st.queue with
    | [] => st
    | (node_id, cell) :: rest =>
      bfsLoop adj fuel
        (processNeighbors cell ((dictGet adj node_id).getD []) { st with queue := rest })

/-- Placement of one node unreachable from the BFS origin: the first
free cell of the row-major scan. -/
def leftoverStep (pr : Dict Cell × List Cell) (node_id : String) :
    Dict Cell × List Cell :=
  let cell := find_empty_position pr.2
  (dictPut pr.1 node_id cell, occInsert cell pr.2)

/-- `set(services) | set(junctions)` in declaration order.  CPython
iterates a set in an unspecified order; the model fixes the
declaration order, making the origin `list(all_nodes)[0]` the first
declared service (or junction when there is no service). -/
def allNodeIds (d : ArchitectureDiagram) : List String :=
  (d.services.map Prod.fst ++ d.junctions.map Prod.fst).dedup

/-- ArchitectureLayout._assign_grid_positions; also returns the
instrumentation flag of GridState.collided. -/
def assign_grid_positions (d : ArchitectureDiagram) (adj : AdjList) :
    Dict Cell × Bool :=
  match allNodeIds d with
  | [] => ([], false)
  | start :: _ =>
    let st0 : GridState :=
      { grid_pos := [(start, ((0 : Int), (0 : Int)))],
        visited := [start],
        occupied := [((0 : Int), (0 : Int))],
        queue := [(start, ((0 : Int), (0 : Int)))],
        collided := false }
    let st := bfsLoop adj (adj.length + 1) st0
    let leftoverFold :=
      ((allNodeIds d).filter (fun n => n ∉ st.visited)).foldl leftoverStep
        (st.grid_pos, st.occupied)
    (leftoverFold.1, st.collided)

/-- Write x and y to the node `node_id` resolves to, with the
get_node priority order (services, junctions, groups, layers); a no-op
when the id resolves to nothing, matching the `if node:` guards. -/
def setNodeXY (d : ArchitectureDiagram) (node_id : String) (nx ny : Q) :
    ArchitectureDiagram :=
  if dictHas d.services node_id then
    { d with services :=
        d.services.map (fun p =>
          if p.1 = node_id then (p.1, { p.2 with x := nx, y := ny }) else p) }
  else if dictHas d.junctions node_id then
    { d with junctions :=
        d.junctions.map (fun p =>
          if p.1 = node_id then (p.1, { p.2 with x := nx, y := ny }) else p) }
  else if dictHas d.groups node_id then
    { d with groups :=
        d.groups.map (fun p =>
          if p.1 = node_id then (p.1, { p.2 with x := nx, y := ny }) else p) }
  else if dictHas d.layers node_id then
    { d with layers :=
        d.layers.map (fun p =>
          if p.1 = node_id then (p.1, { p.2 with x := nx, y := ny }) else p) }
  else d

/-- Minimum of a list of integers with a default for the empty list. -/
def intMin (xs : List Int) (dflt : Int) : Int :=
  match xs with
  | [] => dflt
  | x :: rest => rest.foldl min x

/-- Minimum of a list of rationals with a default for the empty list. -/
def qMin (xs : List Q) (dflt : Q) : Q :=
  match xs with
  | [] => dflt
  | x :: rest => rest.foldl min x

/-- One entry of the _apply_grid_positions loop: normalised grid cell
to pixel center, written to the node. -/
def applyStep (cfg : LayoutConfig) (min_row min_col : Int)
    (d : ArchitectureDiagram) (p : String × Cell) : ArchitectureDiagram :=
  let norm_row : Int := p.2.1 - min_row
  let norm_col : Int := p.2.2 - min_col
  let x : Q := cfg.canvas_padding
    + (norm_col : Q) * (cfg.node_width + cfg.node_spacing_x) + cfg.node_width / 2
  let y : Q := cfg.canvas_padding
    + (norm_row : Q) * (cfg.node_height + cfg.node_spacing_y) + cfg.node_height / 2
  setNodeXY d p.1 x y

/-- ArchitectureLayout._apply_grid_positions. -/
def apply_grid_positions (cfg : LayoutConfig) (d : ArchitectureDiagram)
    (grid : Dict Cell) : ArchitectureDiagram :=
  let min_row := intMin (grid.map (fun p => p.2.1)) 0
  let min_col := intMin (grid.map (fun p => p.2.2)) 0
  grid.foldl (applyStep cfg min_row min_col) d

/-- Bounding box (left, top, right, bottom). -/
structure Box where
  left : Q
  top : Q
  right : Q
  bottom : Q
deriving DecidableEq, Repr

/-- A node's pixel bounding box around its center. -/
def nodeBox (n : NodeRef) : Box :=
  { left := n.x - n.width / 2, top := n.y - n.height / 2,
    right := n.x + n.width / 2, bottom := n.y + n.height / 2 }

/-- One min/max accumulation step of _calculate_group_bounds. -/
def boxUnion2 (acc b : Box) : Box :=
  { left := min acc.left b.left, top := min acc.top b.top,
    right := max acc.right b.right, bottom := max acc.bottom b.bottom }

/-- Union of bounding boxes: the min/max folds of
_calculate_group_bounds (the float infinity initialisers plus a
non-empty fold amount to a fold from the first box). -/
def unionBoxes : List Box → Option Box
  | [] => none
  | b :: rest => some (rest.foldl boxUnion2 b)

/-- Replace the group stored under key `gid`. -/
def updateGroup (d : ArchitectureDiagram) (gid : String) (g : Group) :
    ArchitectureDiagram :=
  { d with groups := d.groups.map (fun p => if p.1 = gid then (p.1, g) else p) }

/-- The body of the `for group in self.groups.values()` loop of
_calculate_group_bounds, for the group stored under `gid`. -/
def groupSetBounds (cfg : LayoutConfig) (d : ArchitectureDiagram) (gid : String) :
    ArchitectureDiagram :=
  match dictGet d.groups gid with
  | none => d
  | some group =>
    let children := d.get_children group.id
    if children.isEmpty then
      updateGroup d gid
        { group with
            width := cfg.node_width + cfg.group_padding * 2,
            height := cfg.node_height + cfg.group_padding * 2 }
    else
      match unionBoxes (children.filterMap (fun cid => (d.get_node cid).map nodeBox)) with
      | none => d
      | some b =>
        updateGroup d gid
          { group with
              x := (b.left + b.right) / 2,
              y := (b.top + b.bottom) / 2,
              width := (b.right - b.left) + cfg.group_padding * 2,
              height := (b.bottom - b.top) + cfg.group_padding * 2 }

/-- ArchitectureLayout._calculate_group_bounds: groups are processed in
dict (declaration) order, each one mutated in place before the next is
examined. -/
def calculate_group_bounds (cfg : LayoutConfig) (d : ArchitectureDiagram) :
    ArchitectureDiagram :=
  (d.groups.map Prod.fst).foldl (groupSetBounds cfg) d

/-- ArchitectureLayout._center_diagram. -/
def center_diagram (cfg : LayoutConfig) (d : ArchitectureDiagram) :
    ArchitectureDiagram :=
  if d.services.isEmpty && d.junctions.isEmpty then d
  else
    let xs := (d.services.map (fun p => p.2.x - p.2.width / 2))
      ++ (d.junctions.map (fun p => p.2.x - p.2.width / 2))
    let ys := (d.services.map (fun p => p.2.y - p.2.height / 2))
      ++ (d.junctions.map (fun p => p.2.y - p.2.height / 2))
    let offset_x := cfg.canvas_padding - qMin xs 0
    let offset_y := cfg.canvas_padding - qMin ys 0
    { d with
        services := d.services.map (fun p =>
          (p.1, { p.2 with x := p.2.x + offset_x, y := p.2.y + offset_y })),
        junctions := d.junctions.map (fun p =>
          (p.1, { p.2 with x := p.2.x + offset_x, y := p.2.y + offset_y })),
        groups := d.groups.map (fun p =>
          (p.1, { p.2 with x := p.2.x + offset_x, y := p.2.y + offset_y })) }

/-- Stable insertion of a layer into a list sorted by order. -/
def orderedInsertLayer (x : Layer) : List Layer → List Layer
  | [] => [x]
  | y :: t => if x.order ≤ y.order then x :: y :: t else y :: orderedInsertLayer x t

/-- Stable insertion sort of layers by order. -/
def insertionSortLayers : List Layer → List Layer
  | [] => []
  | x :: t => orderedInsertLayer x (insertionSortLayers t)

/-- ArchitectureDiagram.get_layers_ordered: layers sorted by order
(Python sorted is stable; a stable sort by the same key is unique, so
the structurally recursive stable insertion sort below is the same
function). -/
def get_layers_ordered (d : ArchitectureDiagram) : List Layer :=
  insertionSortLayers (d.layers.map Prod.snd)

/-- Replace the layer stored under key `lid` by applying `f`. -/
def updateLayer (d : ArchitectureDiagram) (lid : String) (f : Layer → Layer) :
    ArchitectureDiagram :=
  { d with layers := d.layers.map (fun p => if p.1 = lid then (p.1, f p.2) else p) }

/-- The per-layer body of the `for layer in layers` loop of
_layout_layered: position the layer box, then its children. -/
def layoutLayerStep (cfg : LayoutConfig) (services_area_width : Q)
    (st : ArchitectureDiagram × Q) (layer : Layer) : ArchitectureDiagram × Q :=
  let (d, y_offset) := st
  let children := d.get_children layer.id
  let d := updateLayer d layer.id (fun lyr =>
    { lyr with
        x := cfg.canvas_padding + cfg.layer_label_width / 2,
        y := y_offset + cfg.layer_height / 2,
        width := cfg.layer_label_width - 20,
        height := cfg.layer_height - 20 })
  let services_start_x :=
    cfg.canvas_padding + cfg.layer_label_width + cfg.node_spacing_x / 2
  let d :=
    match children with
    | [child0] =>
      let center_x := services_start_x + services_area_width / 2
      setNodeXY d child0 center_x (y_offset + cfg.layer_height / 2)
    | _ =>
      children.enum.foldl
        (fun d ic =>
          setNodeXY d ic.2
            (services_start_x + (ic.1 : Q) * (cfg.node_width + cfg.node_spacing_x)
              + cfg.node_width / 2)
            (y_offset + cfg.layer_height / 2))
        d
  (d, y_offset + cfg.layer_height + cfg.layer_spacing)

/-- ArchitectureLayout._layout_layered. -/
def layout_layered (cfg : LayoutConfig) (d : ArchitectureDiagram) :
    ArchitectureDiagram :=
  let layers := get_layers_ordered d
  let max_services_per_layer : Nat :=
    layers.foldl (fun m l => max m (d.get_children l.id).length) 0
  let services_area_width : Q :=
    (max_services_per_layer : Q) * (cfg.node_width + cfg.node_spacing_x)
  (layers.foldl (layoutLayerStep cfg services_area_width)
    (d, cfg.canvas_padding)).1

/-- ArchitectureLayout.layout. -/
def layout (cfg : LayoutConfig) (d : ArchitectureDiagram) : ArchitectureDiagram :=
  if d.is_layered then layout_layered cfg d
  else
    let adj := build_adjacency d
    let grid := (assign_grid_positions d adj).1
    let d1 := apply_grid_positions cfg d grid
    let d2 := calculate_group_bounds cfg d1
    center_diagram cfg d2


/-! ## Lottie renderer

`LottieRenderer`: diagram to Lottie JSON.  JSON values are modelled by
the inductive `LJson`; numeric fields hold exact rationals.  The float
square root used by the arrow geometry is abstracted as the `sqrtFn`
parameter. -/

inductive LJson where
  | null
  | jnum (q : Q)
  | jstr (s : String)
  | jbool (b : Bool)
  | jarr (xs : List LJson)
  | jobj (fields : List (String × LJson))
deriving Repr

/-- dataclass LottieConfig; `colors` defaults to the theme palette of
__post_init__. -/
structure LottieConfig where
  width : Int := 800
  height : Int := 600
  fps : Int := 60
  duration_seconds : Q := 2
  background_color : String := "#2B2B2B"
  colors : Dict (List Q) := [
    ("background", [0.169, 0.169, 0.169]),
    ("cloud", [0.239, 0.239, 0.239]),
    ("cloud_stroke", [0.306, 0.804, 0.769]),
    ("server", [0.365, 0.678, 0.886]),
    ("database", [0.0, 0.851, 0.647]),
    ("disk", [0.851, 0.275, 0.937]),
    ("arrow", [1.0, 0.420, 0.420]),
    ("text", [1.0, 1.0, 1.0]),
    ("text_secondary", [0.690, 0.690, 0.690]),
    ("brain", [0.988, 0.549, 0.675]),
    ("neural", [0.988, 0.549, 0.675]),
    ("ai", [0.988, 0.549, 0.675]),
    ("api", [0.365, 0.678, 0.886]),
    ("sensor", [0.565, 0.792, 0.976]),
    ("logs", [0.565, 0.792, 0.976]),
    ("search", [0.565, 0.792, 0.976]),
    ("query", [0.565, 0.792, 0.976]),
    ("wifi", [0.306, 0.804, 0.769]),
    ("globe", [0.306, 0.804, 0.769]),
    ("web", [0.306, 0.804, 0.769]),
    ("gear", [0.988, 0.773, 0.318]),
    ("cog", [0.988, 0.773, 0.318]),
    ("settings", [0.988, 0.773, 0.318]),
    ("tools", [0.988, 0.773, 0.318]),
    ("lightbulb", [0.988, 0.867, 0.318]),
    ("idea", [0.988, 0.867, 0.318]),
    ("output", [0.565, 0.792, 0.976]),
    ("decision", [0.988, 0.773, 0.318]),
    ("loop", [0.565, 0.792, 0.976]),
    ("error", [1.0, 0.420, 0.420]),
    ("check", [0.0, 0.851, 0.647]),
    ("layer_input", [0.298, 0.475, 0.329]),
    ("layer_process", [0.227, 0.318, 0.502]),
    ("layer_action", [0.988, 0.773, 0.318]),
    ("layer_output", [0.400, 0.318, 0.600])]
deriving Repr

/-- LottieRenderer.ICON_COLORS. -/
def ICON_COLORS : Dict String := [
  ("server", "server"), ("database", "database"), ("disk", "disk"),
  ("storage", "disk"), ("cloud", "cloud_stroke"),
  ("brain", "brain"), ("neural", "neural"), ("ai", "ai"),
  ("api", "api"), ("sensor", "sensor"), ("logs", "logs"),
  ("search", "search"), ("query", "query"),
  ("wifi", "wifi"), ("globe", "globe"), ("web", "web"),
  ("gear", "gear"), ("cog", "cog"), ("settings", "settings"), ("tools", "tools"),
  ("lightbulb", "lightbulb"), ("idea", "idea"), ("output", "output"),
  ("decision", "decision"), ("loop", "loop"), ("error", "error"), ("check", "check")]

/-- Python substring containment (`needle in hay`). -/
def strContains (hay needle : String) : Bool :=
  decide (List.IsInfix needle.toList hay.toList)

/-- Python truthiness of an optional string. -/
def truthyStr : Option String → Bool
  | none => false
  | some s => s ≠ ""

/-- `colors["server"]` (present in every configuration built from the
dataclass defaults; the empty list stands for the unreachable KeyError). -/
def colorsServer (cfg : LottieConfig) : List Q :=
  (dictGet cfg.colors "server").getD []

/-- LottieRenderer._get_color. -/
def get_color (cfg : LottieConfig) (icon : Option String) : List Q :=
  match icon with
  | some ic =>
    if ic ≠ "" && dictHas ICON_COLORS ic then
      match dictGet ICON_COLORS ic with
      | some color_key => (dictGet cfg.colors color_key).getD (colorsServer cfg)
      | none => colorsServer cfg
    else colorsServer cfg
  | none => colorsServer cfg

/-- Python int() truncation toward zero. -/
def pyInt (q : Q) : Int :=
  if 0 ≤ q then ⌊q⌋ else ⌈q⌉

/-- A static Lottie value `{"a": 0, "k": v}`. -/
def sv (v : LJson) : LJson :=
  .jobj [("a", .jnum 0), ("k", v)]

/-- An array of numbers. -/
def nums (l : List Q) : LJson :=
  .jarr (l.map .jnum)

/-- Shape item `{"ty": "rc", ...}`. -/
def rcItem (s p r : LJson) : LJson :=
  .jobj [("ty", .jstr "rc"), ("s", s), ("p", p), ("r", r)]

/-- Shape item `{"ty": "el", ...}`. -/
def elItem (s p : LJson) : LJson :=
  .jobj [("ty", .jstr "el"), ("s", s), ("p", p)]

/-- Fill item `{"ty": "fl", ...}`. -/
def flItem (c o : LJson) : LJson :=
  .jobj [("ty", .jstr "fl"), ("c", c), ("o", o)]

/-- The transform item ending every shape group, with rotation `r`
(0 everywhere except the error icon, which uses 45). -/
def trItemR (r : Q) : LJson :=
  .jobj [("ty", .jstr "tr"), ("p", sv (nums [0, 0])), ("a", sv (nums [0, 0])),
         ("s", sv (nums [100, 100])), ("r", sv (.jnum r)), ("o", sv (.jnum 100))]

def trItem : LJson := trItemR 0

/-- Group shape `{"ty": "gr", "it": ..., "nm": ...}`. -/
def grItem (it : List LJson) (nm : String) : LJson :=
  .jobj [("ty", .jstr "gr"), ("it", .jarr it), ("nm", .jstr nm)]

/-- The `ks` transform block shared by the shape and text layers. -/
def ksBlock (p : LJson) : LJson :=
  .jobj [("o", sv (.jnum 100)), ("r", sv (.jnum 0)), ("p", p),
         ("a", sv (nums [0, 0, 0])), ("s", sv (nums [100, 100, 100]))]

/-- A shape layer (`"ty": 4`) with the field order of the source. -/
def shapeLayer (ind : Nat) (nm : String) (p : LJson) (shapes : List LJson)
    (df : Int) : LJson :=
  .jobj [("ddd", .jnum 0), ("ind", .jnum ind), ("ty", .jnum 4), ("nm", .jstr nm),
         ("sr", .jnum 1), ("ks", ksBlock p), ("ao", .jnum 0),
         ("shapes", .jarr shapes), ("ip", .jnum 0), ("op", .jnum df), ("st", .jnum 0)]

/-- A text layer (`"ty": 5`) with the field order of the source. -/
def textLayer (ind : Nat) (nm : String) (p : LJson) (t : LJson) (df : Int) : LJson :=
  .jobj [("ddd", .jnum 0), ("ind", .jnum ind), ("ty", .jnum 5), ("nm", .jstr nm),
         ("sr", .jnum 1), ("ks", ksBlock p), ("ao", .jnum 0),
         ("t", t), ("ip", .jnum 0), ("op", .jnum df), ("st", .jnum 0)]

/-- LottieRenderer._render_service. -/
def render_service (cfg : LottieConfig) (df : Int) (service : Service)
    (ind : Nat) : LJson :=
  let color := get_color cfg service.icon ++ [1]
  shapeLayer ind service.id (sv (nums [service.x, service.y, 0]))
    [grItem
      [rcItem (sv (nums [service.width, service.height])) (sv (nums [0, 0]))
        (sv (.jnum 8)),
       flItem (sv (nums color)) (sv (.jnum 100)),
       trItem]
      "Box"]
    df

/-- The shape list of LottieRenderer._render_service_icon: one branch
per recognised icon keyword, in the order of the if/elif chain;
an empty list means no icon layer. -/
def iconShapes (icon : String) : List LJson :=
  let white : List Q := [1, 1, 1, 1]
  if icon = "server" then
    [grItem
      ([rcItem (sv (nums [50, 10])) (sv (nums [0, -18])) (sv (.jnum 2)),
        rcItem (sv (nums [50, 10])) (sv (nums [0, 0])) (sv (.jnum 2)),
        rcItem (sv (nums [50, 10])) (sv (nums [0, 18])) (sv (.jnum 2)),
        flItem (sv (nums white)) (sv (.jnum 70)), trItem])
      "ServerIcon"]
  else if icon = "database" then
    [grItem
      [rcItem (sv (nums [44, 35])) (sv (nums [0, 0])) (sv (.jnum 0)),
       elItem (sv (nums [44, 14])) (sv (nums [0, -18])),
       elItem (sv (nums [44, 14])) (sv (nums [0, 18])),
       flItem (sv (nums white)) (sv (.jnum 60)), trItem]
      "DBIcon"]
  else if icon = "disk" ∨ icon = "storage" then
    [grItem
      [elItem (sv (nums [45, 45])) (sv (nums [0, 0])),
       flItem (sv (nums white)) (sv (.jnum 50)), trItem]
      "DiskPlatter",
     grItem
      [elItem (sv (nums [14, 14])) (sv (nums [0, 0])),
       flItem (sv (nums white)) (sv (.jnum 100)), trItem]
      "DiskHub"]
  else if icon = "brain" ∨ icon = "neural" ∨ icon = "ai" then
    [grItem
      [elItem (sv (nums [40, 35])) (sv (nums [0, 0])),
       elItem (sv (nums [20, 18])) (sv (nums [-12, -8])),
       elItem (sv (nums [20, 18])) (sv (nums [12, -8])),
       elItem (sv (nums [16, 14])) (sv (nums [0, 12])),
       flItem (sv (nums white)) (sv (.jnum 70)), trItem]
      "BrainIcon"]
  else if icon = "gear" ∨ icon = "cog" ∨ icon = "settings" then
    [grItem
      [elItem (sv (nums [30, 30])) (sv (nums [0, 0])),
       rcItem (sv (nums [10, 44])) (sv (nums [0, 0])) (sv (.jnum 2)),
       rcItem (sv (nums [44, 10])) (sv (nums [0, 0])) (sv (.jnum 2)),
       flItem (sv (nums white)) (sv (.jnum 70)), trItem]
      "GearIcon"]
  else if icon = "lightbulb" ∨ icon = "idea" then
    [grItem
      [elItem (sv (nums [35, 35])) (sv (nums [0, -5])),
       rcItem (sv (nums [20, 15])) (sv (nums [0, 15])) (sv (.jnum 3)),
       flItem (sv (nums white)) (sv (.jnum 80)), trItem]
      "LightbulbIcon"]
  else if icon = "api" then
    [grItem
      [rcItem (sv (nums [45, 30])) (sv (nums [0, 0])) (sv (.jnum 4)),
       flItem (sv (nums white)) (sv (.jnum 60)), trItem]
      "APIIcon"]
  else if icon = "search" ∨ icon = "query" then
    [grItem
      [elItem (sv (nums [32, 32])) (sv (nums [-5, -5])),
       rcItem (sv (nums [8, 20])) (sv (nums [12, 12])) (sv (.jnum 3)),
       flItem (sv (nums white)) (sv (.jnum 70)), trItem]
      "SearchIcon"]
  else if icon = "wifi" ∨ icon = "sensor" then
    [grItem
      [elItem (sv (nums [12, 12])) (sv (nums [0, 10])),
       elItem (sv (nums [30, 20])) (sv (nums [0, 0])),
       elItem (sv (nums [45, 30])) (sv (nums [0, -8])),
       flItem (sv (nums white)) (sv (.jnum 60)), trItem]
      "WifiIcon"]
  else if icon = "globe" ∨ icon = "web" then
    [grItem
      [elItem (sv (nums [40, 40])) (sv (nums [0, 0])),
       elItem (sv (nums [20, 40])) (sv (nums [0, 0])),
       rcItem (sv (nums [40, 2])) (sv (nums [0, 0])) (sv (.jnum 0)),
       flItem (sv (nums white)) (sv (.jnum 60)), trItem]
      "GlobeIcon"]
  else if icon = "logs" then
    [grItem
      ([rcItem (sv (nums [40, 6])) (sv (nums [0, -12])) (sv (.jnum 2)),
        rcItem (sv (nums [40, 6])) (sv (nums [0, -4])) (sv (.jnum 2)),
        rcItem (sv (nums [40, 6])) (sv (nums [0, 4])) (sv (.jnum 2)),
        rcItem (sv (nums [40, 6])) (sv (nums [0, 12])) (sv (.jnum 2)),
        flItem (sv (nums white)) (sv (.jnum 70)), trItem])
      "LogsIcon"]
  else if icon = "tools" ∨ icon = "decision" then
    [grItem
      [rcItem (sv (nums [12, 40])) (sv (nums [-8, 0])) (sv (.jnum 3)),
       rcItem (sv (nums [12, 40])) (sv (nums [8, 0])) (sv (.jnum 3)),
       flItem (sv (nums white)) (sv (.jnum 70)), trItem]
      "ToolsIcon"]
  else if icon = "loop" then
    [grItem
      [elItem (sv (nums [38, 38])) (sv (nums [0, 0])),
       rcItem (sv (nums [12, 12])) (sv (nums [19, 0])) (sv (.jnum 0)),
       flItem (sv (nums white)) (sv (.jnum 70)), trItem]
      "LoopIcon"]
  else if icon = "error" then
    [grItem
      [rcItem (sv (nums [8, 45])) (sv (nums [0, 0])) (sv (.jnum 2)),
       rcItem (sv (nums [45, 8])) (sv (nums [0, 0])) (sv (.jnum 2)),
       flItem (sv (nums white)) (sv (.jnum 80)), trItemR 45]
      "ErrorIcon"]
  else if icon = "check" then
    [grItem
      [elItem (sv (nums [40, 40])) (sv (nums [0, 0])),
       flItem (sv (nums white)) (sv (.jnum 70)), trItem]
      "CheckIcon"]
  else if icon = "output" then
    [grItem
      [rcItem (sv (nums [35, 30])) (sv (nums [0, 0])) (sv (.jnum 4)),
       rcItem (sv (nums [10, 20])) (sv (nums [5, 0])) (sv (.jnum 2)),
       flItem (sv (nums white)) (sv (.jnum 70)), trItem]
      "OutputIcon"]
  else []

/-- LottieRenderer._render_service_icon: `if not shapes: return None`
(an absent icon accumulates no shapes), else a shape layer carrying the
accumulated shapes. -/
def render_service_icon (df : Int) (service : Service) (ind : Nat) :
    Option LJson :=
  match service.icon with
  | none => none
  | some ic =>
    match iconShapes ic with
    | [] => none
    | s0 :: rest =>
      some (shapeLayer ind (service.id ++ "_icon")
        (sv (nums [service.x, service.y, 0])) (s0 :: rest) df)

/-- LottieRenderer._render_group. -/
def render_group (cfg : LottieConfig) (df : Int) (group : Group) (ind : Nat) :
    LJson :=
  let stroke_color := (dictGet cfg.colors "cloud_stroke").getD [] ++ [1]
  let border :=
    grItem
      [rcItem (sv (nums [group.width, group.height])) (sv (nums [0, 0]))
        (sv (.jnum 8)),
       .jobj [("ty", .jstr "st"), ("c", sv (nums stroke_color)),
              ("o", sv (.jnum 60)), ("w", sv (.jnum 2)),
              ("d", .jarr
                [.jobj [("n", .jstr "d"), ("nm", .jstr "dash"), ("v", sv (.jnum 8))],
                 .jobj [("n", .jstr "g"), ("nm", .jstr "gap"), ("v", sv (.jnum 5))]])],
       trItem]
      "Border"
  let shapes :=
    if group.icon = some "cloud" then
      let icon_x := -group.width / 2 + 25
      let icon_y := -group.height / 2 + 20
      [border,
       grItem
        [elItem (sv (nums [24, 16])) (sv (nums [icon_x, icon_y])),
         elItem (sv (nums [16, 14])) (sv (nums [icon_x - 10, icon_y + 2])),
         elItem (sv (nums [14, 12])) (sv (nums [icon_x + 10, icon_y + 2])),
         flItem (sv (nums stroke_color)) (sv (.jnum 80)), trItem]
        "CloudIcon"]
    else [border]
  shapeLayer ind ("Group " ++ group.id) (sv (nums [group.x, group.y, 0])) shapes df

/-- LottieRenderer._render_layer (the layer box). -/
def render_layer (cfg : LottieConfig) (df : Int) (arch_layer : Layer) (ind : Nat) :
    LJson :=
  let dfltColor := (dictGet cfg.colors "layer_process").getD (colorsServer cfg)
  let layer_color :=
    if truthyStr arch_layer.icon then
      let low := (arch_layer.icon.getD "").toLower
      if strContains low "input" then
        (dictGet cfg.colors "layer_input").getD []
      else if strContains low "process" then
        (dictGet cfg.colors "layer_process").getD []
      else if strContains low "action" then
        (dictGet cfg.colors "layer_action").getD []
      else if strContains low "output" then
        (dictGet cfg.colors "layer_output").getD []
      else dfltColor
    else dfltColor
  let fill_color := layer_color ++ [1]
  shapeLayer ind ("Layer " ++ arch_layer.id)
    (sv (nums [arch_layer.x, arch_layer.y, 0]))
    [grItem
      [rcItem (sv (nums [arch_layer.width, arch_layer.height])) (sv (nums [0, 0]))
        (sv (.jnum 8)),
       flItem (sv (nums fill_color)) (sv (.jnum 100)), trItem]
      "LayerBox"]
    df

/-- The text document block of a text layer. -/
def textBlock (sFields : List (String × LJson)) : LJson :=
  .jobj [("d", .jobj [("k", .jarr [.jobj [("s", .jobj sFields), ("t", .jnum 0)]])]),
         ("p", .jobj []),
         ("m", .jobj [("g", .jnum 1), ("a", sv (nums [0, 0]))]),
         ("a", .jarr [])]

/-- LottieRenderer._render_layer_label: a two-word label is split over
two lines. -/
def render_layer_label (cfg : LottieConfig) (df : Int) (arch_layer : Layer)
    (ind : Nat) : LJson :=
  let text_color := (dictGet cfg.colors "text").getD []
  let label_text := arch_layer.label.getD ""
  let label_text :=
    if ' ' ∈ label_text.toList then
      match (label_text.split isPySpace).filter (fun w => w ≠ "") with
      | [w1, w2] => w1 ++ "\n" ++ w2
      | _ => label_text
    else label_text
  textLayer ind ("LayerLabel " ++ arch_layer.id)
    (sv (nums [arch_layer.x, arch_layer.y, 0]))
    (textBlock
      [("sz", nums [90, 60]), ("ps", nums [-45, -20]), ("s", .jnum 11),
       ("f", .jstr "Arial"), ("t", .jstr label_text), ("ca", .jnum 0),
       ("j", .jnum 2), ("tr", .jnum 0), ("lh", .jnum 14), ("ls", .jnum 0),
       ("fc", nums text_color)])
    df

/-- LottieRenderer._get_port_position. -/
def get_port_position (n : NodeRef) (direction : Direction) : Q × Q :=
  match direction with
  | .L => (n.x - n.width / 2 - 5, n.y)
  | .R => (n.x + n.width / 2 + 5, n.y)
  | .T => (n.x, n.y - n.height / 2 - 5)
  | .B => (n.x, n.y + n.height / 2 + 5)

/-- LottieRenderer._render_arrow.  Returns none when the source or the
target id does not resolve; `sqrtFn` abstracts the float square root in
the length computation. -/
def render_arrow (cfg : LottieConfig) (sqrtFn : Q → Q)
    (d : ArchitectureDiagram) (df : Int) (edge : Edge) (ind : Nat) :
    Option LJson :=
  match d.get_node edge.source_id, d.get_node edge.target_id with
  | some source, some target =>
    let start := get_port_position source edge.source_dir
    let pend := get_port_position target edge.target_dir
    let arrow_color := (dictGet cfg.colors "arrow").getD [] ++ [1]
    let dx := pend.1 - start.1
    let dy := pend.2 - start.2
    let length := sqrtFn (dx ^ 2 + dy ^ 2)
    let nxy : Q × Q := if length > 0 then (dx / length, dy / length) else (1, 0)
    let nx := nxy.1
    let ny := nxy.2
    let arrow_end : Q × Q := (pend.1 - nx * 15, pend.2 - ny * 15)
    let perp_x := -ny
    let perp_y := nx
    let head_size : Q := 10
    let head1 : Q × Q :=
      (pend.1 - nx * 18 + perp_x * head_size, pend.2 - ny * 18 + perp_y * head_size)
    let head2 : Q × Q :=
      (pend.1 - nx * 18 - perp_x * head_size, pend.2 - ny * 18 - perp_y * head_size)
    let dash_size : Q := 8
    let gap_size : Q := 4
    let pattern_length := dash_size + gap_size
    some (shapeLayer ind ("Arrow " ++ edge.source_id ++ "-" ++ edge.target_id)
      (sv (nums [0, 0, 0]))
      [grItem
        [.jobj [("ty", .jstr "sh"),
                ("ks", .jobj [("a", .jnum 0),
                  ("k", .jobj [("c", .jbool false),
                    ("v", .jarr [nums [start.1, start.2],
                                 nums [arrow_end.1, arrow_end.2]]),
                    ("i", .jarr [nums [0, 0], nums [0, 0]]),
                    ("o", .jarr [nums [0, 0], nums [0, 0]])])])],
         .jobj [("ty", .jstr "st"), ("c", sv (nums arrow_color)),
                ("o", sv (.jnum 100)), ("w", sv (.jnum 3)),
                ("lc", .jnum 2), ("lj", .jnum 2),
                ("d", .jarr
                  [.jobj [("n", .jstr "d"), ("nm", .jstr "dash"),
                          ("v", sv (.jnum dash_size))],
                   .jobj [("n", .jstr "g"), ("nm", .jstr "gap"),
                          ("v", sv (.jnum gap_size))],
                   .jobj [("n", .jstr "o"), ("nm", .jstr "offset"),
                          ("v", .jobj [("a", .jnum 1),
                            ("k", .jarr
                              [.jobj [("t", .jnum 0), ("s", nums [0]),
                                 ("i", .jobj [("x", nums [0.167]), ("y", nums [0.167])]),
                                 ("o", .jobj [("x", nums [0.167]), ("y", nums [0.167])])],
                               .jobj [("t", .jnum (df - 1)),
                                 ("s", nums [-pattern_length * 10])]])])]])],
         trItem]
        "Line",
       grItem
        [.jobj [("ty", .jstr "sh"),
                ("ks", .jobj [("a", .jnum 0),
                  ("k", .jobj [("c", .jbool true),
                    ("v", .jarr [nums [pend.1, pend.2],
                                 nums [head1.1, head1.2],
                                 nums [head2.1, head2.2]]),
                    ("i", .jarr [nums [0, 0], nums [0, 0], nums [0, 0]]),
                    ("o", .jarr [nums [0, 0], nums [0, 0], nums [0, 0]])])])],
         flItem (sv (nums arrow_color)) (sv (.jnum 100)),
         trItem]
        "Head"]
      df)
  | _, _ => none

/-- LottieRenderer._render_label (service label). -/
def render_label (cfg : LottieConfig) (df : Int) (service : Service) (ind : Nat) :
    LJson :=
  let text_color := (dictGet cfg.colors "text").getD []
  textLayer ind ("Label " ++ service.id)
    (sv (nums [service.x, service.y + service.height / 2 + 20, 0]))
    (textBlock
      [("sz", nums [150, 30]), ("ps", nums [-75, -10]), ("s", .jnum 13),
       ("f", .jstr "Arial"), ("t", .jstr (service.label.getD "")), ("ca", .jnum 0),
       ("j", .jnum 2), ("tr", .jnum 0), ("lh", .jnum 16), ("ls", .jnum 0),
       ("fc", nums text_color)])
    df

/-- LottieRenderer._render_group_label. -/
def render_group_label (cfg : LottieConfig) (df : Int) (group : Group) (ind : Nat) :
    LJson :=
  let text_color := (dictGet cfg.colors "cloud_stroke").getD []
  let label_x := group.x - group.width / 2 + 55
  let label_y := group.y - group.height / 2 + 22
  textLayer ind ("Label " ++ group.id)
    (sv (nums [label_x, label_y, 0]))
    (textBlock
      [("sz", nums [200, 30]), ("ps", nums [0, -10]), ("s", .jnum 16),
       ("f", .jstr "Arial"), ("t", .jstr (group.label.getD "")), ("ca", .jnum 0),
       ("j", .jnum 0), ("tr", .jnum 0), ("lh", .jnum 20), ("ls", .jnum 0),
       ("fc", nums text_color)])
    df

/-- LottieRenderer._render_background; note it does not advance the
layer index. -/
def render_background (cfg : LottieConfig) (df : Int) (ind : Nat) : LJson :=
  .jobj [("ddd", .jnum 0), ("ind", .jnum ind), ("ty", .jnum 1),
         ("nm", .jstr "Background"), ("sr", .jnum 1),
         ("ks", .jobj [("o", sv (.jnum 100)), ("r", sv (.jnum 0)),
           ("p", sv (nums [(cfg.width : Q) / 2, (cfg.height : Q) / 2, 0])),
           ("a", sv (nums [(cfg.width : Q) / 2, (cfg.height : Q) / 2, 0])),
           ("s", sv (nums [100, 100, 100]))]),
         ("ao", .jnum 0), ("sw", .jnum cfg.width), ("sh", .jnum cfg.height),
         ("sc", .jstr cfg.background_color),
         ("ip", .jnum 0), ("op", .jnum df), ("st", .jnum 0)]

/-- The per-call mutable state of LottieRenderer (layer index and the
assets list, which is created empty and never appended to). -/
structure RState where
  layer_idx : Nat := 1
  assets : List LJson := []

/-- Emit one optional layer per element, advancing the layer index
exactly when a layer is emitted. -/
def renderOptSeq {α : Type} (f : α → Nat → Option LJson) :
    List α → Nat → List LJson × Nat
  | [], i => ([], i)
  | x :: xs, i =>
    match f x i with
    | none => renderOptSeq f xs i
    | some l =>
      let r := renderOptSeq f xs (i + 1)
      (l :: r.1, r.2)

/-- The layer-emission sequence of LottieRenderer.render, starting from
layer index 1; returns the layer array and the final index. -/
def renderLayerList (cfg : LottieConfig) (sqrtFn : Q → Q)
    (d : ArchitectureDiagram) (df : Int) : List LJson × Nat :=
  let a1 := renderOptSeq (fun e i => render_arrow cfg sqrtFn d df e i) d.edges 1
  let a2 := renderOptSeq (fun p i => some (render_group cfg df p.2 i)) d.groups a1.2
  let a3 := renderOptSeq
    (fun p i => if truthyStr p.2.label then some (render_layer_label cfg df p.2 i) else none)
    d.layers a2.2
  let a4 := renderOptSeq (fun p i => some (render_layer cfg df p.2 i)) d.layers a3.2
  let a5 := renderOptSeq (fun p i => render_service_icon df p.2 i) d.services a4.2
  let a6 := renderOptSeq (fun p i => some (render_service cfg df p.2 i)) d.services a5.2
  let a7 := renderOptSeq
    (fun p i => if truthyStr p.2.label then some (render_label cfg df p.2 i) else none)
    d.services a6.2
  let a8 := renderOptSeq
    (fun p i => if truthyStr p.2.label then some (render_group_label cfg df p.2 i) else none)
    d.groups a7.2
  let bg := render_background cfg df a8.2
  (a1.1 ++ a2.1 ++ a3.1 ++ a4.1 ++ a5.1 ++ a6.1 ++ a7.1 ++ a8.1 ++ [bg], a8.2)

/-- LottieRenderer.render: the layer index is reset to 1 at entry; the
document and the renderer state after the call are returned. -/
def render (cfg : LottieConfig) (sqrtFn : Q → Q) (st : RState)
    (d : ArchitectureDiagram) : LJson × RState :=
  let df : Int := pyInt ((cfg.fps : Q) * cfg.duration_seconds)
  let ll := renderLayerList cfg sqrtFn d df
  let doc : LJson :=
    .jobj [("v", .jstr "5.7.4"), ("fr", .jnum cfg.fps), ("ip", .jnum 0),
           ("op", .jnum df), ("w", .jnum cfg.width), ("h", .jnum cfg.height),
           ("nm", .jstr "Architecture Diagram"), ("ddd", .jnum 0),
           ("assets", .jarr st.assets),
           ("fonts", .jobj [("list", .jarr
             [.jobj [("fName", .jstr "Arial"), ("fFamily", .jstr "Arial"),
                     ("fStyle", .jstr "Regular"),
                     ("ascent", .jnum 71.5988159179688)]])]),
           ("layers", .jarr ll.1)]
  (doc, { layer_idx := ll.2, assets := st.assets })


/-! ## Statement-support definitions

Accessors over the emitted JSON and the spec-side characterisations the
claims are stated with. -/

/-- Object field access (null when absent or not an object). -/
def getF (j : LJson) (k : String) : LJson :=
  match j with
  | .jobj fields => ((fields.find? (fun p => p.1 = k)).map (fun p => p.2)).getD .null
  | _ => .null

/-- Array element access (null when out of range or not an array). -/
def jIdx (j : LJson) (n : Nat) : LJson :=
  match j with
  | .jarr xs => xs.getD n .null
  | _ => .null

/-- Coercion of a layer counter into the rational JSON number space. -/
def natQ (n : Nat) : Q := (n : Q)

/-- The layer array of an emitted document. -/
def docLayers (j : LJson) : List LJson :=
  match getF j "layers" with
  | .jarr ls => ls
  | _ => []

/-- The `nm` field of a layer. -/
def layerName (l : LJson) : String :=
  match getF l "nm" with
  | .jstr s => s
  | _ => ""

/-- The `ind` field of a layer. -/
def layerInd (l : LJson) : Q :=
  match getF l "ind" with
  | .jnum q => q
  | _ => 0

/-- The dash-offset keyframe array of an arrow layer:
`shapes[0].it[1].d[2].v.k`. -/
def arrowOffsetKeyframes (l : LJson) : LJson :=
  getF (getF (jIdx (getF (jIdx (getF (jIdx (getF l "shapes") 0) "it") 1) "d") 2) "v") "k"

/-- The icon keywords that emit an icon layer (the branches of the
if/elif chain of _render_service_icon). -/
def recognizedIcon : Option String → Bool
  | none => false
  | some s =>
    s ∈ ["server", "database", "disk", "storage", "brain", "neural", "ai",
         "gear", "cog", "settings", "lightbulb", "idea", "api", "search",
         "query", "wifi", "sensor", "globe", "web", "logs", "tools",
         "decision", "loop", "error", "check", "output"]

/-- An edge whose two endpoint ids resolve through get_node. -/
def edgeResolves (d : ArchitectureDiagram) (e : Edge) : Bool :=
  (d.get_node e.source_id).isSome && (d.get_node e.target_id).isSome

/-- The layer names the z-order contract prescribes, in emission
order. -/
def expectedLayerNames (d : ArchitectureDiagram) : List String :=
  ((d.edges.filter (edgeResolves d)).map
      (fun e => "Arrow " ++ e.source_id ++ "-" ++ e.target_id))
    ++ (d.groups.map (fun p => "Group " ++ p.2.id))
    ++ ((d.layers.filter (fun p => truthyStr p.2.label)).map
      (fun p => "LayerLabel " ++ p.2.id))
    ++ (d.layers.map (fun p => "Layer " ++ p.2.id))
    ++ ((d.services.filter (fun p => recognizedIcon p.2.icon)).map
      (fun p => p.2.id ++ "_icon"))
    ++ (d.services.map (fun p => p.2.id))
    ++ ((d.services.filter (fun p => truthyStr p.2.label)).map
      (fun p => "Label " ++ p.2.id))
    ++ ((d.groups.filter (fun p => truthyStr p.2.label)).map
      (fun p => "Label " ++ p.2.id))
    ++ ["Background"]

def countArrows (d : ArchitectureDiagram) : Nat :=
  (d.edges.filter (edgeResolves d)).length

def countLayerLabels (d : ArchitectureDiagram) : Nat :=
  (d.layers.filter (fun p => truthyStr p.2.label)).length

def countIcons (d : ArchitectureDiagram) : Nat :=
  (d.services.filter (fun p => recognizedIcon p.2.icon)).length

def countServiceLabels (d : ArchitectureDiagram) : Nat :=
  (d.services.filter (fun p => truthyStr p.2.label)).length

def countGroupLabels (d : ArchitectureDiagram) : Nat :=
  (d.groups.filter (fun p => truthyStr p.2.label)).length

/-- A line matched by none of the five statement patterns and not
subject to the blank, comment, or header skip rules. -/
def lineUnrecognized (l : String) : Bool :=
  let t := pyStrip l
  !(t = "") && !(pyStartsWith t "#") && !(pyStartsWith t "architecture")
    && (matchLayer t).isNone && (matchGroup t).isNone
    && (matchService t).isNone && (matchJunction t).isNone
    && (matchEdge t).isNone

/-- Basic well-formedness of a diagram, as established by the parser:
keys are duplicate-free within each entity kind and every stored
entity's id field equals its dict key. -/
def WFDiagram (d : ArchitectureDiagram) : Prop :=
  (d.groups.map Prod.fst).Nodup ∧ (d.services.map Prod.fst).Nodup ∧
  (d.junctions.map Prod.fst).Nodup ∧ (d.layers.map Prod.fst).Nodup ∧
  (∀ p ∈ d.groups, p.2.id = p.1) ∧ (∀ p ∈ d.services, p.2.id = p.1) ∧
  (∀ p ∈ d.junctions, p.2.id = p.1) ∧ (∀ p ∈ d.layers, p.2.id = p.1)

instance (d : ArchitectureDiagram) : Decidable (WFDiagram d) := by
  unfold WFDiagram; infer_instance

/-- The n-th cell of the row-major scan of _find_empty_position:
11 columns (0 through 10) per row. -/
def scanCell (n : Nat) : Cell :=
  (((n / 11 : Nat) : Int), ((n % 11 : Nat) : Int))

/-! Concrete inputs used by witnesses and counterexamples. -/

/-- The literal scenario of the specification. -/
def exScenario : ArchitectureDiagram := parse
  ["architecture", "group api(cloud)[API]", "service db(database)[Database] in api",
   "service disk1(disk)[Storage] in api", "service disk2(disk)[Storage] in api",
   "service server(server)[Server] in api",
   "db:L -- R:server", "disk1:T -- B:server", "disk2:T -- B:db"]

/-- A group whose only child is itself a group, declared parent first. -/
def exNestedGroups : ArchitectureDiagram :=
  parse ["group a", "group b in a", "service s in b"]

/-- A group with two service children. -/
def exFlatGroup : ArchitectureDiagram :=
  parse ["group g", "service a in g", "service b in g"]

/-- Twelve services and no edges: eleven fill row 0 of the grid. -/
def exTwelve : ArchitectureDiagram := parse
  ["service a", "service b", "service c", "service d", "service e",
   "service f", "service g", "service h", "service i", "service j",
   "service k", "service l"]

/-- Two services joined by an arrow edge. -/
def exTwoServices : ArchitectureDiagram :=
  parse ["service a", "service b", "a:R --> L:b"]

/-- A service with an edge to an id that resolves to nothing. -/
def exDangling : ArchitectureDiagram :=
  parse ["service a", "a:R --> L:ghost"]

/-- A layered diagram whose layer has a group as direct child. -/
def exLayerGroupChild : ArchitectureDiagram :=
  parse ["layer l", "group g in l"]

/-- A layered diagram with a group that is not a child of any layer. -/
def exLayeredPlain : ArchitectureDiagram :=
  parse ["layer l", "service s in l", "group h"]


/-- The per-kind key sets are duplicate-free. -/
def NodupKeys (d : ArchitectureDiagram) : Prop :=
  (d.services.map Prod.fst).Nodup ∧ (d.groups.map Prod.fst).Nodup ∧
    (d.junctions.map Prod.fst).Nodup ∧ (d.layers.map Prod.fst).Nodup

/-- Membership test used by the scan-order characterisation: a cell
lies in the row-major scan region at linear index at least k. -/
def scanGE (k : Nat) (c : Cell) : Bool :=
  decide (0 ≤ c.1) && decide (0 ≤ c.2) && decide (c.2 ≤ 10)
    && decide ((k : Int) ≤ 11 * c.1 + c.2)

/-- Invariant of the grid-assignment state: once a collision has been
accepted the flag is set; otherwise the assigned cells are pairwise
distinct, lie in the occupied set, and every assigned id is visited. -/
def GInv (st : GridState) : Prop :=
  st.collided = true ∨
    ((st.grid_pos.map Prod.snd).Nodup
      ∧ (∀ c ∈ st.grid_pos.map Prod.snd, c ∈ st.occupied)
      ∧ (∀ k ∈ st.grid_pos.map Prod.fst, k ∈ st.visited))

/-- Key, id and parent of each group entry: the part of the groups
dict that layout never modifies. -/
def skelG (gs : Dict Group) : List (String × String × Option String) :=
  gs.map (fun p => (p.1, p.2.id, p.2.parent))

/-- Key, id and parent of each service entry. -/
def skelS (ss : Dict Service) : List (String × String × Option String) :=
  ss.map (fun p => (p.1, p.2.id, p.2.parent))

/-- Key, id and parent of each junction entry. -/
def skelJ (js : Dict Junction) : List (String × String × Option String) :=
  js.map (fun p => (p.1, p.2.id, p.2.parent))

/-- Translation of a bounding box. -/
def shiftBox (ox oy : Q) (b : Box) : Box :=
  { left := b.left + ox, top := b.top + oy,
    right := b.right + ox, bottom := b.bottom + oy }

/-- The uniform positional shift applied by _center_diagram to services,
junctions and groups. -/
def shiftAll (e : ArchitectureDiagram) (ox oy : Q) : ArchitectureDiagram :=
  { e with
      services := e.services.map (fun p =>
        (p.1, { p.2 with x := p.2.x + ox, y := p.2.y + oy })),
      junctions := e.junctions.map (fun p =>
        (p.1, { p.2 with x := p.2.x + ox, y := p.2.y + oy })),
      groups := e.groups.map (fun p =>
        (p.1, { p.2 with x := p.2.x + ox, y := p.2.y + oy })) }

/-- Key, id, parent, width and height of each group entry: everything
layered layout is claimed to leave alone except x and y. -/
def skelGW (gs : Dict Group) : List (String × String × Option String × Q × Q) :=
  gs.map (fun p => (p.1, p.2.id, p.2.parent, p.2.width, p.2.height))

/-- Frame of the layered layout on the three node dicts: group keys,
ids, parents, widths and heights are kept, and the service and
junction skeletons are kept. -/
abbrev GFrame (e d : ArchitectureDiagram) : Prop :=
  skelGW e.groups = skelGW d.groups ∧ skelS e.services = skelS d.services
    ∧ skelJ e.junctions = skelJ d.junctions

/-! ## Theorems -/

/-! ### C4: the parser is total and skips unrecognised lines -/

lemma parseLine_unrecognized (st : ArchitectureDiagram × Int) (l : String)
    (h : lineUnrecognized l = true) : parseLine st l = st := by
  unfold lineUnrecognized at h
  simp only [Bool.and_eq_true, Bool.not_eq_true, decide_eq_true_eq,
    Option.isNone_iff_eq_none, decide_eq_false_iff_not] at h
  obtain ⟨⟨⟨⟨⟨⟨⟨hblank, hcomment⟩, hheader⟩, hlayer⟩, hgroup⟩, hservice⟩, hjunction⟩, hedge⟩ := h
  unfold parseLine
  simp [hblank, hcomment, hheader, hlayer, hgroup, hservice, hjunction, hedge]

/-- C4: parse is total by construction (it is a Lean function on any
line list), and a line that is not blank, not a comment, not the
architecture header, and matched by none of the five statement patterns
leaves the parsed diagram exactly as if the line were absent. -/
theorem c4_parse_skips_unrecognized (ls1 ls2 : List String) (l : String)
    (h : lineUnrecognized l = true) :
    parse (ls1 ++ l :: ls2) = parse (ls1 ++ ls2) := by
  unfold parse
  rw [List.foldl_append, List.foldl_append, List.foldl_cons,
    parseLine_unrecognized _ _ h]

theorem c4_parse_skips_unrecognized_witness :
    lineUnrecognized "!!!" = true ∧
      parse ["service a", "!!!", "service b"] = parse ["service a", "service b"] :=
  ⟨by decide, c4_parse_skips_unrecognized ["service a"] ["service b"] "!!!" (by decide)⟩

/-! ### C8: id uniqueness -/

/-- C8 counterexample: the parser does not enforce cross-kind id
uniqueness; after parsing these two lines the id "a" is simultaneously
a key of the services and the groups mappings. -/
theorem c8_counterexample :
    dictHas (parse ["service a", "group a"]).services "a" = true ∧
      dictHas (parse ["service a", "group a"]).groups "a" = true := by
  decide

lemma nodupKeys_dictPut {α : Type} (m : Dict α) (k : String) (v : α)
    (h : (m.map Prod.fst).Nodup) : ((dictPut m k v).map Prod.fst).Nodup := by
  unfold dictPut
  by_cases hk : dictHas m k
  · simp only [hk, if_true]
    have hkeys : (m.map (fun p => if p.1 = k then (k, v) else p)).map Prod.fst
        = m.map Prod.fst := by
      rw [List.map_map]
      apply List.map_congr_left
      intro p _
      by_cases hpk : p.1 = k <;> simp [hpk]
    rw [hkeys]; exact h
  · simp only [hk, if_false]
    have hk2 : k ∉ m.map Prod.fst := by
      intro hmem
      apply hk
      unfold dictHas
      rw [List.any_eq_true]
      obtain ⟨p, hp, hpk⟩ := List.mem_map.mp hmem
      exact ⟨p, hp, by simp [hpk]⟩
    simp [List.nodup_append, h, hk2]

lemma parseLine_nodupKeys (st : ArchitectureDiagram × Int) (l : String)
    (h : NodupKeys st.1) : NodupKeys (parseLine st l).1 := by
  obtain ⟨h1, h2, h3, h4⟩ := h
  unfold parseLine
  simp only []
  split_ifs with hb hc hh
  · exact ⟨h1, h2, h3, h4⟩
  · exact ⟨h1, h2, h3, h4⟩
  · exact ⟨h1, h2, h3, h4⟩
  · split
    · exact ⟨h1, h2, h3, nodupKeys_dictPut _ _ _ h4⟩
    · split
      · exact ⟨h1, nodupKeys_dictPut _ _ _ h2, h3, h4⟩
      · split
        · exact ⟨nodupKeys_dictPut _ _ _ h1, h2, h3, h4⟩
        · split
          · exact ⟨h1, h2, nodupKeys_dictPut _ _ _ h3, h4⟩
          · split
            · exact ⟨h1, h2, h3, h4⟩
            · exact ⟨h1, h2, h3, h4⟩

lemma parse_go_nodupKeys (lines : List String) (st : ArchitectureDiagram × Int)
    (h : NodupKeys st.1) : NodupKeys (lines.foldl parseLine st).1 := by
  induction lines generalizing st with
  | nil => exact h
  | cons l rest ih => exact ih _ (parseLine_nodupKeys _ _ h)

/-- C8 amended: for every input, ids are unique within each entity kind
(every mapping has duplicate-free keys); cross-kind disjointness is not
enforced (see the counterexample). -/
theorem c8_per_kind_key_uniqueness (lines : List String) :
    ((parse lines).services.map Prod.fst).Nodup ∧
    ((parse lines).groups.map Prod.fst).Nodup ∧
    ((parse lines).junctions.map Prod.fst).Nodup ∧
    ((parse lines).layers.map Prod.fst).Nodup := by
  have := parse_go_nodupKeys lines ({}, 0)
    ⟨List.nodup_nil, List.nodup_nil, List.nodup_nil, List.nodup_nil⟩
  exact this


/-! ### C7: placement scan for unreachable nodes -/

/-- C7 counterexample: with twelve services and no edges, eleven nodes
fill row 0 of the grid — the cell (0, 10) is assigned, so a row of the
row-major scan holds eleven columns (0 through 10), not ten. -/
theorem c7_counterexample :
    ((0 : Int), (10 : Int)) ∈
      (assign_grid_positions exTwelve (build_adjacency exTwelve)).1.map Prod.snd := by
  decide

lemma filter_length_mono {α : Type} (l : List α) (p q : α → Bool)
    (h : ∀ y, q y = true → p y = true) :
    (l.filter q).length ≤ (l.filter p).length := by
  induction l with
  | nil => simp
  | cons a t ih =>
    by_cases hq : q a = true
    · simp [hq, h a hq, Nat.succ_le_succ ih]
    · simp only [List.filter_cons, hq, if_false, Bool.false_eq_true]
      cases hp : p a <;> simp [ih, Nat.le_succ_of_le ih]

lemma filter_length_lt {α : Type} {l : List α} {p q : α → Bool}
    (h : ∀ y, q y = true → p y = true) {x : α} (hx : x ∈ l)
    (hpx : p x = true) (hqx : q x = false) :
    (l.filter q).length < (l.filter p).length := by
  induction l with
  | nil => cases hx
  | cons a t ih =>
    rcases List.mem_cons.mp hx with rfl | hmem
    · simp only [List.filter_cons, hpx, hqx, if_true, Bool.false_eq_true, if_false]
      exact Nat.lt_succ_of_le (filter_length_mono t p q h)
    · have ih2 := ih hmem
      by_cases hq : q a = true
      · simp [hq, h a hq, Nat.succ_lt_succ ih2]
      · simp only [List.filter_cons, hq, if_false, Bool.false_eq_true]
        cases hp : p a <;> simp [ih2, Nat.lt_succ_of_lt ih2]

lemma scanNext_scanCell (k : Nat) : scanNext (scanCell k) = scanCell (k + 1) := by
  unfold scanNext scanCell
  by_cases h : k % 11 = 10
  · have h1 : (k + 1) % 11 = 0 := by omega
    have h2 : (k + 1) / 11 = k / 11 + 1 := by omega
    simp only [h, h1, h2]
    norm_num
  · have h1 : (k + 1) % 11 = k % 11 + 1 := by omega
    have h2 : (k + 1) / 11 = k / 11 := by omega
    have h3 : ¬ (((k % 11 : Nat) : Int) + 1 > 10) := by
      have : k % 11 < 10 := by omega
      push_cast
      omega
    simp only [h1, h2]
    rw [if_neg h3]
    push_cast
    ring_nf

lemma scanGE_self (k : Nat) : scanGE k (scanCell k) = true := by
  simp only [scanGE, scanCell, Bool.and_eq_true, decide_eq_true_eq]
  refine ⟨⟨⟨?_, ?_⟩, ?_⟩, ?_⟩ <;> push_cast <;> omega

lemma scanGE_mono (k : Nat) (c : Cell) (h : scanGE (k + 1) c = true) :
    scanGE k c = true := by
  simp only [scanGE, Bool.and_eq_true, decide_eq_true_eq] at h ⊢
  push_cast at h ⊢
  omega

lemma scanGE_succ_self (k : Nat) : scanGE (k + 1) (scanCell k) = false := by
  simp only [scanGE, scanCell, Bool.and_eq_true, decide_eq_true_eq]
  by_contra hc
  simp only [Bool.not_eq_false, Bool.and_eq_true, decide_eq_true_eq] at hc
  obtain ⟨-, h⟩ := hc
  have : 11 * ((k / 11 : Nat) : Int) + ((k % 11 : Nat) : Int) = (k : Int) := by
    push_cast
    omega
  omega

lemma scanLoop_spec (occ : List Cell) :
    ∀ fuel k, (occ.filter (scanGE k)).length < fuel →
      ∃ n, k ≤ n ∧ scanLoop occ fuel (scanCell k) = scanCell n ∧
        scanCell n ∉ occ ∧ ∀ m, k ≤ m → m < n → scanCell m ∈ occ := by
  intro fuel
  induction fuel with
  | zero => intro k h; omega
  | succ fuel ih =>
    intro k h
    by_cases hmem : scanCell k ∈ occ
    · have hlt : (occ.filter (scanGE (k + 1))).length
          < (occ.filter (scanGE k)).length :=
        filter_length_lt (scanGE_mono k) hmem (scanGE_self k) (scanGE_succ_self k)
      obtain ⟨n, hkn, heq, hnot, hall⟩ := ih (k + 1) (by omega)
      refine ⟨n, by omega, ?_, hnot, ?_⟩
      · simp only [scanLoop, hmem, if_true, scanNext_scanCell]
        exact heq
      · intro m h1 h2
        rcases Nat.eq_or_lt_of_le h1 with rfl | hlt2
        · exact hmem
        · exact hall m hlt2 h2
    · refine ⟨k, Nat.le_refl _, ?_, hmem, ?_⟩
      · simp [scanLoop, hmem]
      · intro m h1 h2; omega

/-- C7 amended: _find_empty_position returns the first cell not in
`occupied` along the row-major scan (0,0), (0,1), ..., (0,10), (1,0),
... — each row of the scan visits the eleven columns 0 through 10,
wrapping only when the column index exceeds 10. -/
theorem c7_find_empty_first_free (occupied : List Cell) :
    ∃ n, find_empty_position occupied = scanCell n ∧
      scanCell n ∉ occupied ∧ ∀ m, m < n → scanCell m ∈ occupied := by
  have h : (occupied.filter (scanGE 0)).length < occupied.length + 1 :=
    Nat.lt_succ_of_le (List.length_filter_le _ _)
  obtain ⟨n, -, heq, hnot, hall⟩ := scanLoop_spec occupied (occupied.length + 1) 0 h
  refine ⟨n, ?_, hnot, fun m hm => hall m (Nat.zero_le _) hm⟩
  unfold find_empty_position
  exact heq


/-! ### C5: dash-offset animation keyframes -/

/-- C5: every emitted arrow layer animates its dash offset with exactly
two keyframes: the first at frame 0 with offset 0, the last with offset
-(dash_size + gap_size) * 10 = -120, and no further keyframes. -/
theorem c5_dash_offset_keyframes (cfg : LottieConfig) (sqrtFn : Q → Q)
    (d : ArchitectureDiagram) (df : Int) (e : Edge) (i : Nat)
    (hs : (d.get_node e.source_id).isSome = true)
    (ht : (d.get_node e.target_id).isSome = true) :
    ∃ l kf0 kf1, render_arrow cfg sqrtFn d df e i = some l ∧
      arrowOffsetKeyframes l = .jarr [kf0, kf1] ∧
      getF kf0 "t" = .jnum 0 ∧ getF kf0 "s" = nums [0] ∧
      getF kf1 "t" = .jnum (df - 1) ∧ getF kf1 "s" = nums [-(8 + 4) * 10] := by
  obtain ⟨ns, hns⟩ := Option.isSome_iff_exists.mp hs
  obtain ⟨nt, hnt⟩ := Option.isSome_iff_exists.mp ht
  unfold render_arrow
  rw [hns, hnt]
  exact ⟨_, _, _, rfl, rfl, rfl, rfl, rfl, rfl⟩

theorem c5_dash_offset_keyframes_witness :
    ((exTwoServices.get_node "a").isSome = true) ∧
    ((exTwoServices.get_node "b").isSome = true) ∧
    (∃ l kf0 kf1,
      render_arrow {} (fun q => q) exTwoServices 120
        ⟨"a", .R, "b", .L, none, true⟩ 1 = some l ∧
      arrowOffsetKeyframes l = .jarr [kf0, kf1] ∧
      getF kf0 "t" = .jnum 0 ∧ getF kf0 "s" = nums [0] ∧
      getF kf1 "t" = .jnum (120 - 1) ∧ getF kf1 "s" = nums [-(8 + 4) * 10]) :=
  ⟨by decide, by decide,
    c5_dash_offset_keyframes {} (fun q => q) exTwoServices 120
      ⟨"a", .R, "b", .L, none, true⟩ 1 (by decide) (by decide)⟩

/-! ### C6: dangling edges are skipped without affecting the rest -/

lemma renderOptSeq_skip {α : Type} (f : α → Nat → Option LJson) (y : α)
    (hy : ∀ i, f y i = none) :
    ∀ (xs ys : List α) (i : Nat),
      renderOptSeq f (xs ++ y :: ys) i = renderOptSeq f (xs ++ ys) i := by
  intro xs
  induction xs with
  | nil =>
    intro ys i
    simp only [List.nil_append, renderOptSeq, hy i]
  | cons x t ih =>
    intro ys i
    simp only [List.cons_append, renderOptSeq]
    cases f x i <;> simp [ih]

lemma render_arrow_edges_irrelevant (cfg : LottieConfig) (sqrtFn : Q → Q)
    (gs : Dict Group) (ss : Dict Service) (js : Dict Junction) (ls : Dict Layer)
    (E E2 : List Edge) (df : Int) (e : Edge) (i : Nat) :
    render_arrow cfg sqrtFn ⟨gs, ss, js, E, ls⟩ df e i =
      render_arrow cfg sqrtFn ⟨gs, ss, js, E2, ls⟩ df e i := rfl

/-- C6: an Edge with an unresolvable endpoint produces no arrow layer
and leaves the whole rendered document exactly as if the edge were
absent (no exception is possible: render is a total function). -/
theorem c6_dangling_edge_dropped (cfg : LottieConfig) (sqrtFn : Q → Q) (st : RState)
    (gs : Dict Group) (ss : Dict Service) (js : Dict Junction) (ls : Dict Layer)
    (es1 es2 : List Edge) (e : Edge)
    (h : (ArchitectureDiagram.mk gs ss js (es1 ++ e :: es2) ls).get_node e.source_id = none ∨
      (ArchitectureDiagram.mk gs ss js (es1 ++ e :: es2) ls).get_node e.target_id = none) :
    render cfg sqrtFn st ⟨gs, ss, js, es1 ++ e :: es2, ls⟩ =
      render cfg sqrtFn st ⟨gs, ss, js, es1 ++ es2, ls⟩ := by
  have hskip : ∀ i, render_arrow cfg sqrtFn ⟨gs, ss, js, es1 ++ e :: es2, ls⟩
      (pyInt ((cfg.fps : Q) * cfg.duration_seconds)) e i = none := by
    intro i
    unfold render_arrow
    rcases h with h | h
    · rw [h]
    · rw [h]
      cases (ArchitectureDiagram.mk gs ss js (es1 ++ e :: es2) ls).get_node e.source_id <;> rfl
  have h1 : renderOptSeq
      (fun ed i => render_arrow cfg sqrtFn ⟨gs, ss, js, es1 ++ e :: es2, ls⟩
        (pyInt ((cfg.fps : Q) * cfg.duration_seconds)) ed i)
      (es1 ++ e :: es2) 1
      = renderOptSeq
      (fun ed i => render_arrow cfg sqrtFn ⟨gs, ss, js, es1 ++ es2, ls⟩
        (pyInt ((cfg.fps : Q) * cfg.duration_seconds)) ed i)
      (es1 ++ es2) 1 := by
    rw [renderOptSeq_skip _ e hskip es1 es2 1]
    rfl
  unfold render renderLayerList
  simp only [h1]

theorem c6_dangling_edge_dropped_witness :
    (ArchitectureDiagram.get_node exDangling "ghost" = none) ∧
    render {} (fun q => q) {} exDangling =
      render {} (fun q => q) {} { exDangling with edges := [] } :=
  ⟨by decide,
    c6_dangling_edge_dropped {} (fun q => q) {} exDangling.groups
      exDangling.services exDangling.junctions exDangling.layers [] []
      ⟨"a", .R, "ghost", .L, none, true⟩ (Or.inr (by decide))⟩


/-! ### C1 and C9: the z-order contract and the layer indices -/

lemma renderOptSeq_map_names {α : Type} (f : α → Nat → Option LJson)
    (p : α → Bool) (name : α → String)
    (hsome : ∀ x i, (f x i).isSome = p x)
    (hname : ∀ x i l, f x i = some l → layerName l = name x) :
    ∀ (xs : List α) (i : Nat),
      ((renderOptSeq f xs i).1).map layerName = (xs.filter p).map name := by
  intro xs
  induction xs with
  | nil => intro i; rfl
  | cons x t ih =>
    intro i
    cases hfx : f x i with
    | none =>
      have hp : p x = false := by rw [← hsome x i, hfx]; rfl
      simp [renderOptSeq, hfx, hp, ih]
    | some l =>
      have hp : p x = true := by rw [← hsome x i, hfx]; rfl
      simp [renderOptSeq, hfx, hp, ih, hname x i l hfx]

lemma renderOptSeq_map_inds {α : Type} (f : α → Nat → Option LJson)
    (hind : ∀ x i l, f x i = some l → layerInd l = (i : Q)) :
    ∀ (xs : List α) (i : Nat),
      ((renderOptSeq f xs i).1).map layerInd
          = (List.range' i (renderOptSeq f xs i).1.length).map natQ
        ∧ (renderOptSeq f xs i).2 = i + (renderOptSeq f xs i).1.length := by
  intro xs
  induction xs with
  | nil => intro i; exact ⟨rfl, rfl⟩
  | cons x t ih =>
    intro i
    cases hfx : f x i with
    | none =>
      simpa [renderOptSeq, hfx] using ih i
    | some l =>
      obtain ⟨ih1, ih2⟩ := ih (i + 1)
      constructor
      · simp only [renderOptSeq, hfx, List.map_cons, List.length_cons, ih1,
          hind x i l hfx, List.range'_succ]
        rfl
      · simp only [renderOptSeq, hfx, List.length_cons, ih2]
        omega

lemma layerName_shapeLayer (ind : Nat) (nm : String) (p : LJson)
    (shapes : List LJson) (df : Int) :
    layerName (shapeLayer ind nm p shapes df) = nm := rfl

lemma layerName_textLayer (ind : Nat) (nm : String) (p t : LJson) (df : Int) :
    layerName (textLayer ind nm p t df) = nm := rfl

lemma render_arrow_isSome (cfg : LottieConfig) (sqrtFn : Q → Q)
    (d : ArchitectureDiagram) (df : Int) (e : Edge) (i : Nat) :
    (render_arrow cfg sqrtFn d df e i).isSome = edgeResolves d e := by
  unfold render_arrow edgeResolves
  cases d.get_node e.source_id <;> cases d.get_node e.target_id <;> rfl

lemma render_arrow_name (cfg : LottieConfig) (sqrtFn : Q → Q)
    (d : ArchitectureDiagram) (df : Int) (e : Edge) (i : Nat) (l : LJson)
    (h : render_arrow cfg sqrtFn d df e i = some l) :
    layerName l = "Arrow " ++ e.source_id ++ "-" ++ e.target_id := by
  unfold render_arrow at h
  cases hs : d.get_node e.source_id with
  | none => rw [hs] at h; cases h
  | some ns =>
    rw [hs] at h
    cases ht : d.get_node e.target_id with
    | none => rw [ht] at h; cases h
    | some nt =>
      rw [ht] at h
      rw [← Option.some.inj h]
      rfl

lemma render_arrow_ind (cfg : LottieConfig) (sqrtFn : Q → Q)
    (d : ArchitectureDiagram) (df : Int) (e : Edge) (i : Nat) (l : LJson)
    (h : render_arrow cfg sqrtFn d df e i = some l) :
    layerInd l = (i : Q) := by
  unfold render_arrow at h
  cases hs : d.get_node e.source_id with
  | none => rw [hs] at h; cases h
  | some ns =>
    rw [hs] at h
    cases ht : d.get_node e.target_id with
    | none => rw [ht] at h; cases h
    | some nt =>
      rw [ht] at h
      rw [← Option.some.inj h]
      rfl

lemma iconShapes_isEmpty (ic : String) :
    (iconShapes ic).isEmpty = !(recognizedIcon (some ic)) := by
  by_cases h1 : ic = "server"
  · subst h1; decide
  by_cases h2 : ic = "database"
  · subst h2; decide
  by_cases h3 : ic = "disk"
  · subst h3; decide
  by_cases h4 : ic = "storage"
  · subst h4; decide
  by_cases h5 : ic = "brain"
  · subst h5; decide
  by_cases h6 : ic = "neural"
  · subst h6; decide
  by_cases h7 : ic = "ai"
  · subst h7; decide
  by_cases h8 : ic = "gear"
  · subst h8; decide
  by_cases h9 : ic = "cog"
  · subst h9; decide
  by_cases h10 : ic = "settings"
  · subst h10; decide
  by_cases h11 : ic = "lightbulb"
  · subst h11; decide
  by_cases h12 : ic = "idea"
  · subst h12; decide
  by_cases h13 : ic = "api"
  · subst h13; decide
  by_cases h14 : ic = "search"
  · subst h14; decide
  by_cases h15 : ic = "query"
  · subst h15; decide
  by_cases h16 : ic = "wifi"
  · subst h16; decide
  by_cases h17 : ic = "sensor"
  · subst h17; decide
  by_cases h18 : ic = "globe"
  · subst h18; decide
  by_cases h19 : ic = "web"
  · subst h19; decide
  by_cases h20 : ic = "logs"
  · subst h20; decide
  by_cases h21 : ic = "tools"
  · subst h21; decide
  by_cases h22 : ic = "decision"
  · subst h22; decide
  by_cases h23 : ic = "loop"
  · subst h23; decide
  by_cases h24 : ic = "error"
  · subst h24; decide
  by_cases h25 : ic = "check"
  · subst h25; decide
  by_cases h26 : ic = "output"
  · subst h26; decide
  simp [iconShapes, recognizedIcon, h1, h2, h3, h4, h5, h6, h7, h8, h9, h10,
    h11, h12, h13, h14, h15, h16, h17, h18, h19, h20, h21, h22, h23, h24,
    h25, h26]

lemma render_service_icon_isSome (df : Int) (s : Service) (i : Nat) :
    (render_service_icon df s i).isSome = recognizedIcon s.icon := by
  unfold render_service_icon
  cases hic : s.icon with
  | none => rfl
  | some ic =>
    have h := iconShapes_isEmpty ic
    cases hsh : iconShapes ic with
    | nil => rw [hsh] at h; simp at h; simp [hsh, h]
    | cons s0 rest => rw [hsh] at h; simp at h; simp [hsh, h]

lemma render_service_icon_name (df : Int) (s : Service) (i : Nat) (l : LJson)
    (h : render_service_icon df s i = some l) :
    layerName l = s.id ++ "_icon" := by
  unfold render_service_icon at h
  cases hic : s.icon with
  | none => rw [hic] at h; cases h
  | some ic =>
    rw [hic] at h
    dsimp only at h
    cases hsh : iconShapes ic with
    | nil => rw [hsh] at h; cases h
    | cons s0 rest =>
      rw [hsh] at h
      rw [← Option.some.inj h]
      rfl

lemma render_service_icon_ind (df : Int) (s : Service) (i : Nat) (l : LJson)
    (h : render_service_icon df s i = some l) : layerInd l = (i : Q) := by
  unfold render_service_icon at h
  cases hic : s.icon with
  | none => rw [hic] at h; cases h
  | some ic =>
    rw [hic] at h
    dsimp only at h
    cases hsh : iconShapes ic with
    | nil => rw [hsh] at h; cases h
    | cons s0 rest =>
      rw [hsh] at h
      rw [← Option.some.inj h]
      rfl

lemma iteLayer_isSome (c : Bool) (lay : LJson) :
    (if c then some lay else none).isSome = c := by
  cases c <;> rfl

lemma iteLayer_eq_some {c : Bool} {lay l : LJson}
    (h : (if c then some lay else none) = some l) : l = lay := by
  cases c with
  | false => cases h
  | true => exact (Option.some.inj h).symm

/-- C1: for every diagram, the rendered layer array carries exactly the
names of the z-order contract, in order — arrows for resolving edges,
group borders, layer labels, layer boxes, service icons (recognised
icons only), service boxes, service labels, group labels, one
background last — and its length is E + G + LL + LB + I + S + L + GL + 1. -/
theorem c1_z_order_contract (cfg : LottieConfig) (sqrtFn : Q → Q) (st : RState)
    (d : ArchitectureDiagram) :
    ((docLayers (render cfg sqrtFn st d).1).map layerName = expectedLayerNames d)
    ∧ (docLayers (render cfg sqrtFn st d).1).length
        = countArrows d + d.groups.length + countLayerLabels d + d.layers.length
          + countIcons d + d.services.length + countServiceLabels d
          + countGroupLabels d + 1 := by
  have hdoc : docLayers (render cfg sqrtFn st d).1
      = (renderLayerList cfg sqrtFn d (pyInt ((cfg.fps : Q) * cfg.duration_seconds))).1 := rfl
  set df := pyInt ((cfg.fps : Q) * cfg.duration_seconds) with hdf
  have hA := renderOptSeq_map_names
    (fun e i => render_arrow cfg sqrtFn d df e i) (edgeResolves d)
    (fun e => "Arrow " ++ e.source_id ++ "-" ++ e.target_id)
    (fun x i => render_arrow_isSome cfg sqrtFn d df x i)
    (fun x i l h => render_arrow_name cfg sqrtFn d df x i l h)
  have hG := renderOptSeq_map_names
    (fun p : String × Group => fun i => some (render_group cfg df p.2 i))
    (fun _ => true) (fun p => "Group " ++ p.2.id)
    (fun x i => rfl) (fun x i l h => by rw [← Option.some.inj h]; rfl)
  have hLL := renderOptSeq_map_names
    (fun p : String × Layer => fun i =>
      if truthyStr p.2.label then some (render_layer_label cfg df p.2 i) else none)
    (fun p => truthyStr p.2.label) (fun p => "LayerLabel " ++ p.2.id)
    (fun x i => iteLayer_isSome _ _)
    (fun x i l h => by rw [iteLayer_eq_some h]; rfl)
  have hLB := renderOptSeq_map_names
    (fun p : String × Layer => fun i => some (render_layer cfg df p.2 i))
    (fun _ => true) (fun p => "Layer " ++ p.2.id)
    (fun x i => rfl) (fun x i l h => by rw [← Option.some.inj h]; rfl)
  have hI := renderOptSeq_map_names
    (fun p : String × Service => fun i => render_service_icon df p.2 i)
    (fun p => recognizedIcon p.2.icon) (fun p => p.2.id ++ "_icon")
    (fun x i => render_service_icon_isSome df x.2 i)
    (fun x i l h => render_service_icon_name df x.2 i l h)
  have hS := renderOptSeq_map_names
    (fun p : String × Service => fun i => some (render_service cfg df p.2 i))
    (fun _ => true) (fun p => p.2.id)
    (fun x i => rfl) (fun x i l h => by rw [← Option.some.inj h]; rfl)
  have hSL := renderOptSeq_map_names
    (fun p : String × Service => fun i =>
      if truthyStr p.2.label then some (render_label cfg df p.2 i) else none)
    (fun p => truthyStr p.2.label) (fun p => "Label " ++ p.2.id)
    (fun x i => iteLayer_isSome _ _)
    (fun x i l h => by rw [iteLayer_eq_some h]; rfl)
  have hGL := renderOptSeq_map_names
    (fun p : String × Group => fun i =>
      if truthyStr p.2.label then some (render_group_label cfg df p.2 i) else none)
    (fun p => truthyStr p.2.label) (fun p => "Label " ++ p.2.id)
    (fun x i => iteLayer_isSome _ _)
    (fun x i l h => by rw [iteLayer_eq_some h]; rfl)
  have hmain : ((renderLayerList cfg sqrtFn d df).1).map layerName
      = expectedLayerNames d := by
    unfold renderLayerList expectedLayerNames
    simp only [List.map_append, hA, hG, hLL, hLB, hI, hS, hSL, hGL,
      List.filter_true, List.map_cons, List.map_nil]
    rfl
  constructor
  · rw [hdoc]; exact hmain
  · rw [hdoc]
    have hlen : ((renderLayerList cfg sqrtFn d df).1).length
        = (((renderLayerList cfg sqrtFn d df).1).map layerName).length := by
      rw [List.length_map]
    rw [hlen, hmain]
    unfold expectedLayerNames countArrows countLayerLabels countIcons
      countServiceLabels countGroupLabels
    simp [List.length_append, List.length_map]
    omega

lemma inds_append (i : Nat) (L1 L2 : List LJson)
    (h1 : L1.map layerInd = (List.range' i L1.length).map natQ)
    (h2 : L2.map layerInd
      = (List.range' (i + L1.length) L2.length).map natQ) :
    (L1 ++ L2).map layerInd
      = (List.range' i (L1 ++ L2).length).map natQ := by
  rw [List.map_append, h1, h2, List.length_append, ← List.map_append,
    List.range'_append_1, Nat.add_comm L2.length L1.length]

/-- C9: the ind fields of the emitted layers are exactly the
consecutive integers 1..N in emission order (hence all distinct), and
rendering again from the state returned by the first call yields an
identical document — the layer index is reset to 1 at entry and the
assets list is never appended to, so no state leaks between calls. -/
theorem c9_unique_inds_and_stateless_rerender (cfg : LottieConfig)
    (sqrtFn : Q → Q) (st : RState) (d : ArchitectureDiagram) :
    ((docLayers (render cfg sqrtFn st d).1).map layerInd
      = (List.range' 1 (docLayers (render cfg sqrtFn st d).1).length).map
          natQ)
    ∧ (render cfg sqrtFn (render cfg sqrtFn st d).2 d).1
        = (render cfg sqrtFn st d).1 := by
  constructor
  · set df := pyInt ((cfg.fps : Q) * cfg.duration_seconds) with hdf
    have hdoc : docLayers (render cfg sqrtFn st d).1
        = (renderLayerList cfg sqrtFn d df).1 := rfl
    rw [hdoc]
    unfold renderLayerList
    simp only []
    obtain ⟨m1, e1⟩ := renderOptSeq_map_inds
      (fun e i => render_arrow cfg sqrtFn d df e i)
      (fun x i l h => render_arrow_ind cfg sqrtFn d df x i l h) d.edges 1
    generalize hE1 : renderOptSeq
      (fun e i => render_arrow cfg sqrtFn d df e i) d.edges 1 = E1 at m1 e1 ⊢
    obtain ⟨m2, e2⟩ := renderOptSeq_map_inds
      (fun p : String × Group => fun i => some (render_group cfg df p.2 i))
      (fun x i l h => by rw [← Option.some.inj h]; rfl) d.groups E1.2
    generalize hE2 : renderOptSeq
      (fun p : String × Group => fun i => some (render_group cfg df p.2 i))
      d.groups E1.2 = E2 at m2 e2 ⊢
    obtain ⟨m3, e3⟩ := renderOptSeq_map_inds
      (fun p : String × Layer => fun i =>
        if truthyStr p.2.label then some (render_layer_label cfg df p.2 i) else none)
      (fun x i l h => by rw [iteLayer_eq_some h]; rfl) d.layers E2.2
    generalize hE3 : renderOptSeq
      (fun p : String × Layer => fun i =>
        if truthyStr p.2.label then some (render_layer_label cfg df p.2 i) else none)
      d.layers E2.2 = E3 at m3 e3 ⊢
    obtain ⟨m4, e4⟩ := renderOptSeq_map_inds
      (fun p : String × Layer => fun i => some (render_layer cfg df p.2 i))
      (fun x i l h => by rw [← Option.some.inj h]; rfl) d.layers E3.2
    generalize hE4 : renderOptSeq
      (fun p : String × Layer => fun i => some (render_layer cfg df p.2 i))
      d.layers E3.2 = E4 at m4 e4 ⊢
    obtain ⟨m5, e5⟩ := renderOptSeq_map_inds
      (fun p : String × Service => fun i => render_service_icon df p.2 i)
      (fun x i l h => render_service_icon_ind df x.2 i l h) d.services E4.2
    generalize hE5 : renderOptSeq
      (fun p : String × Service => fun i => render_service_icon df p.2 i)
      d.services E4.2 = E5 at m5 e5 ⊢
    obtain ⟨m6, e6⟩ := renderOptSeq_map_inds
      (fun p : String × Service => fun i => some (render_service cfg df p.2 i))
      (fun x i l h => by rw [← Option.some.inj h]; rfl) d.services E5.2
    generalize hE6 : renderOptSeq
      (fun p : String × Service => fun i => some (render_service cfg df p.2 i))
      d.services E5.2 = E6 at m6 e6 ⊢
    obtain ⟨m7, e7⟩ := renderOptSeq_map_inds
      (fun p : String × Service => fun i =>
        if truthyStr p.2.label then some (render_label cfg df p.2 i) else none)
      (fun x i l h => by rw [iteLayer_eq_some h]; rfl) d.services E6.2
    generalize hE7 : renderOptSeq
      (fun p : String × Service => fun i =>
        if truthyStr p.2.label then some (render_label cfg df p.2 i) else none)
      d.services E6.2 = E7 at m7 e7 ⊢
    obtain ⟨m8, e8⟩ := renderOptSeq_map_inds
      (fun p : String × Group => fun i =>
        if truthyStr p.2.label then some (render_group_label cfg df p.2 i) else none)
      (fun x i l h => by rw [iteLayer_eq_some h]; rfl) d.groups E7.2
    generalize hE8 : renderOptSeq
      (fun p : String × Group => fun i =>
        if truthyStr p.2.label then some (render_group_label cfg df p.2 i) else none)
      d.groups E7.2 = E8 at m8 e8 ⊢
    have hbg : ([render_background cfg df E8.2].map layerInd)
        = (List.range' (E7.2 + E8.1.length) 1).map natQ := by
      rw [← e8]
      rfl
    have k8 := inds_append E7.2 E8.1 [render_background cfg df E8.2] m8 hbg
    have k7 := inds_append E6.2 E7.1 _ m7 (by rw [← e7]; exact k8)
    have k6 := inds_append E5.2 E6.1 _ m6 (by rw [← e6]; exact k7)
    have k5 := inds_append E4.2 E5.1 _ m5 (by rw [← e5]; exact k6)
    have k4 := inds_append E3.2 E4.1 _ m4 (by rw [← e4]; exact k5)
    have k3 := inds_append E2.2 E3.1 _ m3 (by rw [← e3]; exact k4)
    have k2 := inds_append E1.2 E2.1 _ m2 (by rw [← e2]; exact k3)
    have k1 := inds_append 1 E1.1 _ m1 (by rw [← e1]; exact k2)
    simp only [List.append_assoc]
    exact k1
  · rfl


/-! ### C3: distinctness of assigned grid cells -/

lemma spiralLoop_mem_imp_exhausted (occ : List Cell) :
    ∀ fuel attempts c, fuel + attempts = 20 →
      (spiralLoop occ fuel attempts c).1 ∈ occ →
      (spiralLoop occ fuel attempts c).2 = 20 := by
  intro fuel
  induction fuel with
  | zero =>
    intro attempts c hsum hmem
    simp only [spiralLoop]
    omega
  | succ fuel ih =>
    intro attempts c hsum hmem
    rw [spiralLoop] at hmem ⊢
    by_cases h : c ∈ occ
    · rw [if_pos h] at hmem ⊢
      exact ih (attempts + 1) (spiralStep attempts c) (by omega) hmem
    · rw [if_neg h] at hmem ⊢
      exact absurd hmem h

lemma dictHas_iff_mem_keys {α : Type} (m : Dict α) (k : String) :
    dictHas m k = true ↔ k ∈ m.map Prod.fst := by
  constructor
  · intro h
    unfold dictHas at h
    rcases List.any_eq_true.mp h with ⟨p, hp, hpk⟩
    simp only [decide_eq_true_eq] at hpk
    exact List.mem_map.mpr ⟨p, hp, hpk⟩
  · intro h
    rcases List.mem_map.mp h with ⟨p, hp, hpk⟩
    unfold dictHas
    exact List.any_eq_true.mpr ⟨p, hp, by simp [hpk]⟩

lemma dictPut_fresh {α : Type} (m : Dict α) (k : String) (v : α)
    (h : k ∉ m.map Prod.fst) : dictPut m k v = m ++ [(k, v)] := by
  unfold dictPut
  rw [if_neg]
  intro hc
  exact h ((dictHas_iff_mem_keys m k).mp hc)

lemma mem_occInsert_self (c : Cell) (occ : List Cell) : c ∈ occInsert c occ := by
  unfold occInsert
  split <;> simp [*]

lemma mem_occInsert_of_mem (x c : Cell) (occ : List Cell) (h : x ∈ occ) :
    x ∈ occInsert c occ := by
  unfold occInsert
  split <;> simp [h]

lemma mem_strInsert_self (x : String) (l : List String) : x ∈ strInsert x l := by
  unfold strInsert
  split <;> simp [*]

lemma mem_strInsert_of_mem (x y : String) (l : List String) (h : x ∈ l) :
    x ∈ strInsert y l := by
  unfold strInsert
  split <;> simp [h]

lemma neighborStep_inv (cell : Cell) (st : GridState)
    (e : String × Direction × Direction) (h : GInv st) :
    GInv (neighborStep cell st e) := by
  unfold neighborStep
  by_cases hv : e.1 ∈ st.visited
  · rw [if_pos hv]; exact h
  · rw [if_neg hv]
    simp only []
    rcases h with hcol | ⟨hnd, hocc, hkeys⟩
    · left; simp [hcol]
    · by_cases hmem : (get_neighbor_position cell.1 cell.2 e.2.1 e.2.2 st.occupied).1
          ∈ st.occupied
      · left; simp [hmem]
      · right
        have hfresh : e.1 ∉ st.grid_pos.map Prod.fst := fun hk => hv (hkeys e.1 hk)
        rw [dictPut_fresh st.grid_pos e.1 _ hfresh]
        refine ⟨?_, ?_, ?_⟩
        · simp only [List.map_append, List.map_cons, List.map_nil]
          rw [List.nodup_append]
          refine ⟨hnd, List.nodup_singleton _, ?_⟩
          intro x hx hx2
          simp only [List.mem_singleton] at hx2
          subst hx2
          exact hmem (hocc _ hx)
        · intro c hc
          simp only [List.map_append, List.map_cons, List.map_nil,
            List.mem_append, List.mem_singleton] at hc
          rcases hc with hc | rfl
          · exact mem_occInsert_of_mem _ _ _ (hocc c hc)
          · exact mem_occInsert_self _ _
        · intro k hk
          simp only [List.map_append, List.map_cons, List.map_nil,
            List.mem_append, List.mem_singleton] at hk
          rcases hk with hk | rfl
          · exact mem_strInsert_of_mem _ _ _ (hkeys k hk)
          · exact mem_strInsert_self _ _

lemma processNeighbors_inv (cell : Cell)
    (entries : List (String × Direction × Direction)) (st : GridState)
    (h : GInv st) : GInv (processNeighbors cell entries st) := by
  unfold processNeighbors
  induction entries generalizing st with
  | nil => exact h
  | cons e t ih => exact ih (neighborStep cell st e) (neighborStep_inv cell st e h)

lemma bfsLoop_inv (adj : AdjList) :
    ∀ (fuel : Nat) (st : GridState), GInv st → GInv (bfsLoop adj fuel st) := by
  intro fuel
  induction fuel with
  | zero => intro st h; exact h
  | succ fuel ih =>
    intro st h
    rw [bfsLoop]
    cases hq : st.queue with
    | nil => exact h
    | cons q rest =>
      obtain ⟨node_id, cell⟩ := q
      exact ih _ (processNeighbors_inv cell _ _ h)

lemma find_empty_not_mem (occ : List Cell) : find_empty_position occ ∉ occ := by
  have h : (occ.filter (scanGE 0)).length < occ.length + 1 :=
    Nat.lt_succ_of_le (List.length_filter_le _ _)
  obtain ⟨n, -, heq, hnot, -⟩ := scanLoop_spec occ (occ.length + 1) 0 h
  have heq2 : find_empty_position occ = scanCell n := heq
  rw [heq2]
  exact hnot

lemma leftover_fold_inv :
    ∀ (ids : List String) (pr : Dict Cell × List Cell),
      ids.Nodup → (∀ id ∈ ids, id ∉ pr.1.map Prod.fst) →
      (pr.1.map Prod.snd).Nodup → (∀ c ∈ pr.1.map Prod.snd, c ∈ pr.2) →
      ((ids.foldl leftoverStep pr).1.map Prod.snd).Nodup
        ∧ (∀ c ∈ (ids.foldl leftoverStep pr).1.map Prod.snd,
            c ∈ (ids.foldl leftoverStep pr).2) := by
  intro ids
  induction ids with
  | nil => intro pr _ _ h3 h4; exact ⟨h3, h4⟩
  | cons id0 rest ih =>
    intro pr hnd hfresh h3 h4
    rw [List.foldl_cons]
    have hid0 : id0 ∉ pr.1.map Prod.fst := hfresh id0 (List.mem_cons_self _ _)
    have hcellfree := find_empty_not_mem pr.2
    apply ih
    · exact (List.nodup_cons.mp hnd).2
    · intro id hid
      unfold leftoverStep
      simp only [dictPut_fresh pr.1 id0 _ hid0, List.map_append, List.map_cons,
        List.map_nil, List.mem_append, List.mem_singleton]
      rintro (hk | rfl)
      · exact hfresh id (List.mem_cons_of_mem _ hid) hk
      · exact (List.nodup_cons.mp hnd).1 hid
    · unfold leftoverStep
      simp only [dictPut_fresh pr.1 id0 _ hid0, List.map_append, List.map_cons,
        List.map_nil]
      rw [List.nodup_append]
      refine ⟨h3, List.nodup_singleton _, ?_⟩
      intro x hx hx2
      simp only [List.mem_singleton] at hx2
      subst hx2
      exact hcellfree (h4 _ hx)
    · intro c hc
      unfold leftoverStep at hc ⊢
      simp only [dictPut_fresh pr.1 id0 _ hid0, List.map_append, List.map_cons,
        List.map_nil, List.mem_append, List.mem_singleton] at hc
      rcases hc with hc | rfl
      · exact mem_occInsert_of_mem _ _ _ (h4 c hc)
      · exact mem_occInsert_self _ _

/-- C3: after grid assignment, the assigned (row, col) cells of all
placed nodes are pairwise distinct provided no bounded collision search
accepted an occupied cell — which, by spiralLoop_mem_imp_exhausted, can
only happen when the 20-step probe budget (cycling column+1, row+1,
column-1, row-1) is exhausted. -/
theorem c3_grid_cells_distinct (d : ArchitectureDiagram)
    (h : (assign_grid_positions d (build_adjacency d)).2 = false) :
    ((assign_grid_positions d (build_adjacency d)).1.map Prod.snd).Nodup := by
  unfold assign_grid_positions at h ⊢
  cases hall : allNodeIds d with
  | nil => exact List.nodup_nil
  | cons start rest =>
    rw [hall] at h
    simp only at h ⊢
    generalize hst : bfsLoop (build_adjacency d) ((build_adjacency d).length + 1)
      { grid_pos := [(start, ((0 : Int), (0 : Int)))],
        visited := [start],
        occupied := [((0 : Int), (0 : Int))],
        queue := [(start, ((0 : Int), (0 : Int)))],
        collided := false } = stF at h ⊢
    have hinv : GInv stF := by
      rw [← hst]
      apply bfsLoop_inv
      right
      refine ⟨?_, ?_, ?_⟩
      · simp
      · intro c hc; simpa using hc
      · intro k hk; simpa using hk
    rcases hinv with hcol | ⟨hnd, hocc, hkeys⟩
    · rw [hcol] at h; cases h
    · have hnodAll : (start :: rest).Nodup := by
        have hd : (allNodeIds d).Nodup := by
          unfold allNodeIds; exact List.nodup_dedup _
        rw [hall] at hd
        exact hd
      have hids : ((start :: rest).filter (fun n => n ∉ stF.visited)).Nodup :=
        hnodAll.filter _
      have hfresh : ∀ id ∈ (start :: rest).filter (fun n => n ∉ stF.visited),
          id ∉ stF.grid_pos.map Prod.fst := by
        intro id hid hk
        have hv := hkeys id hk
        have hnv := (List.mem_filter.mp hid).2
        simp only [decide_eq_true_eq] at hnv
        exact hnv hv
      exact (leftover_fold_inv ((start :: rest).filter (fun n => n ∉ stF.visited))
        (stF.grid_pos, stF.occupied) hids hfresh hnd hocc).1

theorem c3_grid_cells_distinct_witness :
    (assign_grid_positions exScenario (build_adjacency exScenario)).2 = false ∧
      ((assign_grid_positions exScenario
        (build_adjacency exScenario)).1.map Prod.snd).Nodup :=
  ⟨by decide, c3_grid_cells_distinct exScenario (by decide)⟩


/-! ### C2: group bounding boxes -/

lemma dictGet_map_snd {α β : Type} (m : Dict α) (f : α → β) (k : String) :
    dictGet (m.map (fun p => (p.1, f p.2))) k = (dictGet m k).map f := by
  induction m with
  | nil => rfl
  | cons p t ih =>
    unfold dictGet at ih ⊢
    by_cases hk : p.1 = k
    · simp [List.find?_cons_of_pos, hk]
    · simp only [List.map_cons]
      rw [List.find?_cons_of_neg _ (by simpa using hk),
        List.find?_cons_of_neg _ (by simpa using hk)]
      exact ih

lemma dictHas_map_snd {α β : Type} (m : Dict α) (f : α → β) (k : String) :
    dictHas (m.map (fun p => (p.1, f p.2))) k = dictHas m k := by
  unfold dictHas
  induction m with
  | nil => rfl
  | cons p t ih => simp only [List.map_cons, List.any_cons, ih]

lemma skelG_dictGet {gs gs' : Dict Group} (h : skelG gs' = skelG gs)
    (k : String) :
    (dictGet gs' k).map (fun g => (g.id, g.parent))
      = (dictGet gs k).map (fun g => (g.id, g.parent)) := by
  induction gs generalizing gs' with
  | nil =>
    cases gs' with
    | nil => rfl
    | cons q t' => exact absurd h (by simp [skelG])
  | cons p t ih =>
    cases gs' with
    | nil => exact absurd h (by simp [skelG])
    | cons q t' =>
      simp only [skelG, List.map_cons, List.cons.injEq] at h
      obtain ⟨hhead, htail⟩ := h
      have hk1 : q.1 = p.1 := by
        have := congrArg Prod.fst hhead; simpa using this
      have hk2 : q.2.id = p.2.id := by
        have := congrArg (fun t => t.2.1) hhead; simpa using this
      have hk3 : q.2.parent = p.2.parent := by
        have := congrArg (fun t => t.2.2) hhead; simpa using this
      unfold dictGet
      by_cases hk : p.1 = k
      · rw [List.find?_cons_of_pos _ (by simp [hk1, hk]),
          List.find?_cons_of_pos _ (by simp [hk])]
        simp [hk2, hk3]
      · rw [List.find?_cons_of_neg _ (by simp [hk1, hk]),
          List.find?_cons_of_neg _ (by simp [hk])]
        exact ih htail

lemma skelG_keys {gs gs' : Dict Group} (h : skelG gs' = skelG gs) :
    gs'.map Prod.fst = gs.map Prod.fst := by
  have h1 : (skelG gs').map Prod.fst = (skelG gs).map Prod.fst := by rw [h]
  simpa [skelG, List.map_map, Function.comp] using h1

lemma skelG_parents {gs gs' : Dict Group} (h : skelG gs' = skelG gs)
    {gid : String} (hng : ∀ p ∈ gs, p.2.parent ≠ some gid) :
    ∀ p ∈ gs', p.2.parent ≠ some gid := by
  intro p hp
  have hmem : (p.1, p.2.id, p.2.parent) ∈ skelG gs := by
    rw [← h]
    exact List.mem_map.mpr ⟨p, hp, rfl⟩
  obtain ⟨q, hq, hqe⟩ := List.mem_map.mp hmem
  have : q.2.parent = p.2.parent := by
    have := congrArg (fun t => t.2.2) hqe
    simpa using this
  rw [← this]
  exact hng q hq

lemma children_eq_of_skel {e e' : ArchitectureDiagram}
    (hS : skelS e'.services = skelS e.services)
    (hJ : skelJ e'.junctions = skelJ e.junctions)
    (hG : skelG e'.groups = skelG e.groups) (pid : String) :
    e'.get_children pid = e.get_children pid := by
  unfold ArchitectureDiagram.get_children
  have repr : ∀ (sk : List (String × String × Option String))
      (ss : Dict Service), skelS ss = sk →
      (ss.filter (fun p => p.2.parent = some pid)).map (fun p => p.2.id)
        = (sk.filter (fun t => t.2.2 = some pid)).map (fun t => t.2.1) := by
    intro sk ss hsk
    subst hsk
    induction ss with
    | nil => rfl
    | cons p t ih =>
      simp only [skelS, List.map_cons, List.filter_cons, decide_eq_true_eq] at ih ⊢
      by_cases hp : p.2.parent = some pid
      · rw [if_pos hp, if_pos hp]
        simp [ih]
      · rw [if_neg hp, if_neg hp]
        exact ih
  have reprJ : ∀ (sk : List (String × String × Option String))
      (js : Dict Junction), skelJ js = sk →
      (js.filter (fun p => p.2.parent = some pid)).map (fun p => p.2.id)
        = (sk.filter (fun t => t.2.2 = some pid)).map (fun t => t.2.1) := by
    intro sk js hsk
    subst hsk
    induction js with
    | nil => rfl
    | cons p t ih =>
      simp only [skelJ, List.map_cons, List.filter_cons, decide_eq_true_eq] at ih ⊢
      by_cases hp : p.2.parent = some pid
      · rw [if_pos hp, if_pos hp]
        simp [ih]
      · rw [if_neg hp, if_neg hp]
        exact ih
  have reprG : ∀ (sk : List (String × String × Option String))
      (gs : Dict Group), skelG gs = sk →
      (gs.filter (fun p => p.2.parent = some pid)).map (fun p => p.2.id)
        = (sk.filter (fun t => t.2.2 = some pid)).map (fun t => t.2.1) := by
    intro sk gs hsk
    subst hsk
    induction gs with
    | nil => rfl
    | cons p t ih =>
      simp only [skelG, List.map_cons, List.filter_cons, decide_eq_true_eq] at ih ⊢
      by_cases hp : p.2.parent = some pid
      · rw [if_pos hp, if_pos hp]
        simp [ih]
      · rw [if_neg hp, if_neg hp]
        exact ih
  rw [repr _ e'.services hS, repr _ e.services rfl,
    reprJ _ e'.junctions hJ, reprJ _ e.junctions rfl,
    reprG _ e'.groups hG, reprG _ e.groups rfl]


lemma dictGet_isSome_eq_has {α : Type} (m : Dict α) (k : String) :
    (dictGet m k).isSome = dictHas m k := by
  unfold dictGet dictHas
  induction m with
  | nil => rfl
  | cons p t ih =>
    by_cases hk : p.1 = k
    · rw [List.find?_cons_of_pos _ (by simpa using hk)]
      simp [hk]
    · rw [List.find?_cons_of_neg _ (by simpa using hk), List.any_cons, ih]
      simp [hk]

lemma skel_map_xy_G (gs : Dict Group) (n : String) (x y : Q) :
    skelG (gs.map (fun p =>
      if p.1 = n then (p.1, { p.2 with x := x, y := y }) else p)) = skelG gs := by
  unfold skelG
  rw [List.map_map]
  apply List.map_congr_left
  intro p _
  by_cases hp : p.1 = n <;> simp [hp]

lemma skel_map_xy_S (ss : Dict Service) (n : String) (x y : Q) :
    skelS (ss.map (fun p =>
      if p.1 = n then (p.1, { p.2 with x := x, y := y }) else p)) = skelS ss := by
  unfold skelS
  rw [List.map_map]
  apply List.map_congr_left
  intro p _
  by_cases hp : p.1 = n <;> simp [hp]

lemma skel_map_xy_J (js : Dict Junction) (n : String) (x y : Q) :
    skelJ (js.map (fun p =>
      if p.1 = n then (p.1, { p.2 with x := x, y := y }) else p)) = skelJ js := by
  unfold skelJ
  rw [List.map_map]
  apply List.map_congr_left
  intro p _
  by_cases hp : p.1 = n <;> simp [hp]

/-- setNodeXY only rewrites x and y somewhere: every skeleton is kept,
and edges and (empty) layers are untouched. -/
lemma setNodeXY_preserves (d : ArchitectureDiagram) (n : String) (x y : Q) :
    skelG (setNodeXY d n x y).groups = skelG d.groups
    ∧ skelS (setNodeXY d n x y).services = skelS d.services
    ∧ skelJ (setNodeXY d n x y).junctions = skelJ d.junctions
    ∧ (setNodeXY d n x y).edges = d.edges
    ∧ (d.layers = [] → (setNodeXY d n x y).layers = []) := by
  unfold setNodeXY
  split_ifs with h1 h2 h3 h4
  · exact ⟨rfl, skel_map_xy_S _ _ _ _, rfl, rfl, fun hl => hl⟩
  · exact ⟨rfl, rfl, skel_map_xy_J _ _ _ _, rfl, fun hl => hl⟩
  · exact ⟨skel_map_xy_G _ _ _ _, rfl, rfl, rfl, fun hl => hl⟩
  · exact ⟨rfl, rfl, rfl, rfl, fun hl => by
      show d.layers.map _ = []
      rw [hl]
      rfl⟩
  · exact ⟨rfl, rfl, rfl, rfl, fun hl => hl⟩

lemma applyGrid_preserves (cfg : LayoutConfig) (mr mc : Int) :
    ∀ (grid : List (String × Cell)) (d : ArchitectureDiagram),
      skelG (grid.foldl (applyStep cfg mr mc) d).groups = skelG d.groups
      ∧ skelS (grid.foldl (applyStep cfg mr mc) d).services = skelS d.services
      ∧ skelJ (grid.foldl (applyStep cfg mr mc) d).junctions = skelJ d.junctions
      ∧ (grid.foldl (applyStep cfg mr mc) d).edges = d.edges
      ∧ (d.layers = [] → (grid.foldl (applyStep cfg mr mc) d).layers = []) := by
  intro grid
  induction grid with
  | nil => intro d; exact ⟨rfl, rfl, rfl, rfl, fun h => h⟩
  | cons p t ih =>
    intro d
    rw [List.foldl_cons]
    obtain ⟨h1, h2, h3, h4, h5⟩ := setNodeXY_preserves d p.1 _ _
    obtain ⟨g1, g2, g3, g4, g5⟩ := ih (applyStep cfg mr mc d p)
    exact ⟨by rw [g1]; exact h1, by rw [g2]; exact h2, by rw [g3]; exact h3,
      by rw [g4]; exact h4, fun hl => g5 (h5 hl)⟩

/-- groupSetBounds never touches services, junctions, layers or edges. -/
lemma groupSetBounds_other (cfg : LayoutConfig) (e : ArchitectureDiagram)
    (k : String) :
    (groupSetBounds cfg e k).services = e.services
    ∧ (groupSetBounds cfg e k).junctions = e.junctions
    ∧ (groupSetBounds cfg e k).layers = e.layers
    ∧ (groupSetBounds cfg e k).edges = e.edges := by
  unfold groupSetBounds updateGroup
  cases hg : dictGet e.groups k with
  | none => exact ⟨rfl, rfl, rfl, rfl⟩
  | some g =>
    simp only []
    split
    · exact ⟨rfl, rfl, rfl, rfl⟩
    · split
      · exact ⟨rfl, rfl, rfl, rfl⟩
      · exact ⟨rfl, rfl, rfl, rfl⟩

lemma update_list_skel (k : String) (g' : Group) :
    ∀ (gs : Dict Group) (g : Group), (gs.map Prod.fst).Nodup →
      dictGet gs k = some g → g'.id = g.id → g'.parent = g.parent →
      skelG (gs.map (fun p => if p.1 = k then (p.1, g') else p)) = skelG gs := by
  intro gs
  induction gs with
  | nil => intro g _ hget; cases hget
  | cons p t ih =>
    intro g hnodup hget hid hpar
    rw [List.map_cons] at hnodup
    by_cases hp : p.1 = k
    · have hpg : p.2 = g := by
        unfold dictGet at hget
        rw [List.find?_cons_of_pos _ (by simpa using hp)] at hget
        simpa using hget
      have hknot : ∀ q ∈ t, q.1 ≠ k := by
        intro q hq hqk
        apply (List.nodup_cons.mp hnodup).1
        rw [hp, ← hqk]
        exact List.mem_map.mpr ⟨q, hq, rfl⟩
      have htail : t.map (fun q => if q.1 = k then (q.1, g') else q) = t := by
        have hpt : ∀ q ∈ t, (if q.1 = k then (q.1, g') else q) = q :=
          fun q hq => if_neg (hknot q hq)
        exact (List.map_congr_left hpt).trans (List.map_id t)
      have hcons : (p :: t).map (fun q => if q.1 = k then (q.1, g') else q)
          = (p.1, g') :: t := by
        rw [List.map_cons, if_pos hp, htail]
      rw [hcons]
      unfold skelG
      simp [hid, hpar, hpg]
    · have hget2 : dictGet t k = some g := by
        unfold dictGet at hget ⊢
        rwa [List.find?_cons_of_neg _ (by simpa using hp)] at hget
      have htl := ih g (List.nodup_cons.mp hnodup).2 hget2 hid hpar
      have hcons : (p :: t).map (fun q => if q.1 = k then (q.1, g') else q)
          = p :: t.map (fun q => if q.1 = k then (q.1, g') else q) := by
        rw [List.map_cons, if_neg hp]
      rw [hcons]
      unfold skelG at htl ⊢
      simp only [List.map_cons, htl]

lemma dictGet_update_list_ne {α : Type} (k k' : String) (g' : α) (hne : k' ≠ k) :
    ∀ (gs : Dict α),
      dictGet (gs.map (fun p => if p.1 = k then (p.1, g') else p)) k'
        = dictGet gs k' := by
  intro gs
  induction gs with
  | nil => rfl
  | cons p t ih =>
    unfold dictGet at ih ⊢
    by_cases hp : p.1 = k'
    · rw [List.map_cons]
      have hhead : ((if p.1 = k then (p.1, g') else p)).1 = p.1 := by
        split <;> rfl
      rw [List.find?_cons_of_pos _ (by simpa [hhead] using hp),
        List.find?_cons_of_pos _ (by simpa using hp)]
      have : ¬ p.1 = k := fun hc => hne (hp ▸ hc ▸ rfl)
      simp [if_neg this]
    · rw [List.map_cons]
      have hhead : ((if p.1 = k then (p.1, g') else p)).1 = p.1 := by
        split <;> rfl
      rw [List.find?_cons_of_neg _ (by simpa [hhead] using hp),
        List.find?_cons_of_neg _ (by simpa using hp)]
      exact ih

lemma dictGet_update_list_self {α : Type} (k : String) (g' : α) :
    ∀ (gs : Dict α) (g : α), dictGet gs k = some g →
      dictGet (gs.map (fun p => if p.1 = k then (p.1, g') else p)) k
        = some g' := by
  intro gs
  induction gs with
  | nil => intro g hget; cases hget
  | cons p t ih =>
    intro g hget
    unfold dictGet at hget ⊢
    by_cases hp : p.1 = k
    · rw [List.map_cons]
      rw [List.find?_cons_of_pos _ (by simp [hp])]
      simp [if_pos hp]
    · rw [List.map_cons]
      have hhead : ((if p.1 = k then (p.1, g') else p)).1 = p.1 := by
        split <;> rfl
      rw [List.find?_cons_of_neg _ (by simpa [hhead] using hp)]
      rw [List.find?_cons_of_neg _ (by simpa using hp)] at hget
      exact ih g hget


lemma skelS_keys {ss ss' : Dict Service} (h : skelS ss' = skelS ss) :
    ss'.map Prod.fst = ss.map Prod.fst := by
  have h1 : (skelS ss').map Prod.fst = (skelS ss).map Prod.fst := by rw [h]
  simpa [skelS, List.map_map, Function.comp] using h1

lemma skelJ_keys {js js' : Dict Junction} (h : skelJ js' = skelJ js) :
    js'.map Prod.fst = js.map Prod.fst := by
  have h1 : (skelJ js').map Prod.fst = (skelJ js).map Prod.fst := by rw [h]
  simpa [skelJ, List.map_map, Function.comp] using h1

lemma skelG_ids {gs gs' : Dict Group} (h : skelG gs' = skelG gs)
    (hid : ∀ p ∈ gs, p.2.id = p.1) : ∀ p ∈ gs', p.2.id = p.1 := by
  intro p hp
  have hmem : (p.1, p.2.id, p.2.parent) ∈ skelG gs := by
    rw [← h]
    exact List.mem_map.mpr ⟨p, hp, rfl⟩
  obtain ⟨q, hq, hqe⟩ := List.mem_map.mp hmem
  have h1 : q.1 = p.1 := by have := congrArg Prod.fst hqe; simpa using this
  have h2 : q.2.id = p.2.id := by
    have := congrArg (fun t => t.2.1) hqe; simpa using this
  rw [← h2, hid q hq, h1]

lemma skelS_ids {ss ss' : Dict Service} (h : skelS ss' = skelS ss)
    (hid : ∀ p ∈ ss, p.2.id = p.1) : ∀ p ∈ ss', p.2.id = p.1 := by
  intro p hp
  have hmem : (p.1, p.2.id, p.2.parent) ∈ skelS ss := by
    rw [← h]
    exact List.mem_map.mpr ⟨p, hp, rfl⟩
  obtain ⟨q, hq, hqe⟩ := List.mem_map.mp hmem
  have h1 : q.1 = p.1 := by have := congrArg Prod.fst hqe; simpa using this
  have h2 : q.2.id = p.2.id := by
    have := congrArg (fun t => t.2.1) hqe; simpa using this
  rw [← h2, hid q hq, h1]

lemma skelJ_ids {js js' : Dict Junction} (h : skelJ js' = skelJ js)
    (hid : ∀ p ∈ js, p.2.id = p.1) : ∀ p ∈ js', p.2.id = p.1 := by
  intro p hp
  have hmem : (p.1, p.2.id, p.2.parent) ∈ skelJ js := by
    rw [← h]
    exact List.mem_map.mpr ⟨p, hp, rfl⟩
  obtain ⟨q, hq, hqe⟩ := List.mem_map.mp hmem
  have h1 : q.1 = p.1 := by have := congrArg Prod.fst hqe; simpa using this
  have h2 : q.2.id = p.2.id := by
    have := congrArg (fun t => t.2.1) hqe; simpa using this
  rw [← h2, hid q hq, h1]

lemma skel_map_shift_S (ss : Dict Service) (ox oy : Q) :
    skelS (ss.map (fun p =>
      (p.1, { p.2 with x := p.2.x + ox, y := p.2.y + oy }))) = skelS ss := by
  unfold skelS
  rw [List.map_map]
  rfl

lemma skel_map_shift_J (js : Dict Junction) (ox oy : Q) :
    skelJ (js.map (fun p =>
      (p.1, { p.2 with x := p.2.x + ox, y := p.2.y + oy }))) = skelJ js := by
  unfold skelJ
  rw [List.map_map]
  rfl

lemma skel_map_shift_G (gs : Dict Group) (ox oy : Q) :
    skelG (gs.map (fun p =>
      (p.1, { p.2 with x := p.2.x + ox, y := p.2.y + oy }))) = skelG gs := by
  unfold skelG
  rw [List.map_map]
  rfl

lemma groupSetBounds_skel (cfg : LayoutConfig) (e : ArchitectureDiagram)
    (k : String) (hnodup : (e.groups.map Prod.fst).Nodup) :
    skelG (groupSetBounds cfg e k).groups = skelG e.groups := by
  unfold groupSetBounds updateGroup
  cases hg : dictGet e.groups k with
  | none => rfl
  | some g =>
    simp only []
    split
    · exact update_list_skel k _ e.groups g hnodup hg rfl rfl
    · split
      · rfl
      · exact update_list_skel k _ e.groups g hnodup hg rfl rfl

lemma groupSetBounds_get_ne (cfg : LayoutConfig) (e : ArchitectureDiagram)
    (k gid : String) (hne : gid ≠ k) :
    dictGet (groupSetBounds cfg e k).groups gid = dictGet e.groups gid := by
  unfold groupSetBounds updateGroup
  cases hg : dictGet e.groups k with
  | none => rfl
  | some g =>
    simp only []
    split
    · exact dictGet_update_list_ne k gid _ hne e.groups
    · split
      · rfl
      · exact dictGet_update_list_ne k gid _ hne e.groups

lemma calc_fold_other (cfg : LayoutConfig) :
    ∀ (ks : List String) (e : ArchitectureDiagram),
      (ks.foldl (groupSetBounds cfg) e).services = e.services
      ∧ (ks.foldl (groupSetBounds cfg) e).junctions = e.junctions
      ∧ (ks.foldl (groupSetBounds cfg) e).layers = e.layers
      ∧ (ks.foldl (groupSetBounds cfg) e).edges = e.edges := by
  intro ks
  induction ks with
  | nil => intro e; exact ⟨rfl, rfl, rfl, rfl⟩
  | cons k t ih =>
    intro e
    rw [List.foldl_cons]
    obtain ⟨h1, h2, h3, h4⟩ := groupSetBounds_other cfg e k
    obtain ⟨g1, g2, g3, g4⟩ := ih (groupSetBounds cfg e k)
    exact ⟨g1.trans h1, g2.trans h2, g3.trans h3, g4.trans h4⟩

lemma calc_fold_skelG (cfg : LayoutConfig) :
    ∀ (ks : List String) (e : ArchitectureDiagram),
      (e.groups.map Prod.fst).Nodup →
      skelG (ks.foldl (groupSetBounds cfg) e).groups = skelG e.groups := by
  intro ks
  induction ks with
  | nil => intro e _; rfl
  | cons k t ih =>
    intro e hnd
    rw [List.foldl_cons]
    have hstep := groupSetBounds_skel cfg e k hnd
    have hnd2 : ((groupSetBounds cfg e k).groups.map Prod.fst).Nodup := by
      rw [skelG_keys hstep]
      exact hnd
    exact (ih (groupSetBounds cfg e k) hnd2).trans hstep

lemma calc_fold_get_ne (cfg : LayoutConfig) (gid : String) :
    ∀ (ks : List String) (e : ArchitectureDiagram), gid ∉ ks →
      dictGet (ks.foldl (groupSetBounds cfg) e).groups gid
        = dictGet e.groups gid := by
  intro ks
  induction ks with
  | nil => intro e _; rfl
  | cons k t ih =>
    intro e hni
    rw [List.foldl_cons]
    have hne : gid ≠ k := fun hc => hni (hc ▸ List.mem_cons_self _ _)
    exact (ih (groupSetBounds cfg e k)
      (fun hc => hni (List.mem_cons_of_mem _ hc))).trans
      (groupSetBounds_get_ne cfg e k gid hne)

lemma center_cases (cfg : LayoutConfig) (e : ArchitectureDiagram) :
    (center_diagram cfg e = e ∧ (e.services.isEmpty && e.junctions.isEmpty) = true)
    ∨ (∃ ox oy, center_diagram cfg e = { e with
        services := e.services.map (fun p =>
          (p.1, { p.2 with x := p.2.x + ox, y := p.2.y + oy })),
        junctions := e.junctions.map (fun p =>
          (p.1, { p.2 with x := p.2.x + ox, y := p.2.y + oy })),
        groups := e.groups.map (fun p =>
          (p.1, { p.2 with x := p.2.x + ox, y := p.2.y + oy })) }) := by
  unfold center_diagram
  split_ifs with h
  · exact Or.inl ⟨rfl, by simpa using h⟩
  · exact Or.inr ⟨_, _, rfl⟩

lemma boxUnion2_shift (ox oy : Q) (acc b : Box) :
    boxUnion2 (shiftBox ox oy acc) (shiftBox ox oy b)
      = shiftBox ox oy (boxUnion2 acc b) := by
  unfold boxUnion2 shiftBox
  simp only [Box.mk.injEq]
  exact ⟨min_add_add_right _ _ _, min_add_add_right _ _ _,
    max_add_add_right _ _ _, max_add_add_right _ _ _⟩

lemma union_fold_shift (ox oy : Q) :
    ∀ (l : List Box) (acc : Box),
      (l.map (shiftBox ox oy)).foldl boxUnion2 (shiftBox ox oy acc)
        = shiftBox ox oy (l.foldl boxUnion2 acc) := by
  intro l
  induction l with
  | nil => intro acc; rfl
  | cons b t ih =>
    intro acc
    rw [List.map_cons, List.foldl_cons, List.foldl_cons, boxUnion2_shift, ih]

lemma unionBoxes_shift (ox oy : Q) (bs : List Box) :
    unionBoxes (bs.map (shiftBox ox oy)) = (unionBoxes bs).map (shiftBox ox oy) := by
  cases bs with
  | nil => rfl
  | cons b t =>
    simp only [List.map_cons, unionBoxes, Option.map_some]
    rw [union_fold_shift]
    rfl

lemma nodeBox_shift_svc (s : Service) (ox oy : Q) :
    nodeBox (.svc { s with x := s.x + ox, y := s.y + oy })
      = shiftBox ox oy (nodeBox (.svc s)) := by
  unfold nodeBox shiftBox
  simp only [NodeRef.x, NodeRef.y, NodeRef.width, NodeRef.height, Box.mk.injEq]
  exact ⟨by ring, by ring, by ring, by ring⟩

lemma nodeBox_shift_jct (j : Junction) (ox oy : Q) :
    nodeBox (.jct { j with x := j.x + ox, y := j.y + oy })
      = shiftBox ox oy (nodeBox (.jct j)) := by
  unfold nodeBox shiftBox
  simp only [NodeRef.x, NodeRef.y, NodeRef.width, NodeRef.height, Box.mk.injEq]
  exact ⟨by ring, by ring, by ring, by ring⟩

lemma dictGet_mem {α : Type} {m : Dict α} {k : String} {v : α}
    (h : dictGet m k = some v) : ∃ q ∈ m, q.1 = k ∧ q.2 = v := by
  unfold dictGet at h
  cases hf : m.find? (fun p => p.1 = k) with
  | none => rw [hf] at h; cases h
  | some q =>
    rw [hf] at h
    refine ⟨q, List.mem_of_find?_eq_some hf, ?_, by simpa using h⟩
    have := List.find?_some hf
    simpa using this

lemma get_node_eq_of_parts {e e' : ArchitectureDiagram}
    (hS : e'.services = e.services) (hJ : e'.junctions = e.junctions)
    (cid : String)
    (hres : dictHas e.services cid = true ∨ dictHas e.junctions cid = true) :
    e'.get_node cid = e.get_node cid := by
  unfold ArchitectureDiagram.get_node
  rw [hS, hJ]
  cases hs : dictGet e.services cid with
  | some s => rfl
  | none =>
    cases hj : dictGet e.junctions cid with
    | some j => rfl
    | none =>
      exfalso
      rcases hres with h | h
      · rw [← dictGet_isSome_eq_has, hs] at h; cases h
      · rw [← dictGet_isSome_eq_has, hj] at h; cases h

lemma children_resolve (e : ArchitectureDiagram) (gid : String)
    (hidS : ∀ p ∈ e.services, p.2.id = p.1)
    (hidJ : ∀ p ∈ e.junctions, p.2.id = p.1)
    (hng : ∀ p ∈ e.groups, p.2.parent ≠ some gid) :
    ∀ cid ∈ e.get_children gid,
      dictHas e.services cid = true ∨ dictHas e.junctions cid = true := by
  intro cid hcid
  unfold ArchitectureDiagram.get_children at hcid
  rw [List.mem_append, List.mem_append] at hcid
  rcases hcid with (hsv | hjc) | hgr
  · left
    obtain ⟨p, hp, hpid⟩ := List.mem_map.mp hsv
    have hpmem := List.mem_of_mem_filter hp
    apply (dictHas_iff_mem_keys _ _).mpr
    rw [← hpid, hidS p hpmem]
    exact List.mem_map.mpr ⟨p, hpmem, rfl⟩
  · right
    obtain ⟨p, hp, hpid⟩ := List.mem_map.mp hjc
    have hpmem := List.mem_of_mem_filter hp
    apply (dictHas_iff_mem_keys _ _).mpr
    rw [← hpid, hidJ p hpmem]
    exact List.mem_map.mpr ⟨p, hpmem, rfl⟩
  · exfalso
    obtain ⟨p, hp, hpid⟩ := List.mem_map.mp hgr
    obtain ⟨hpmem, hcond⟩ := List.mem_filter.mp hp
    simp only [decide_eq_true_eq] at hcond
    exact hng p hpmem hcond

lemma filterMap_shift {α : Type} (f g : α → Option Box) (sh : Box → Box) :
    ∀ (l : List α), (∀ a ∈ l, g a = (f a).map sh) →
      l.filterMap g = (l.filterMap f).map sh := by
  intro l
  induction l with
  | nil => intro _; rfl
  | cons a t ih =>
    intro hpt
    have ha := hpt a (List.mem_cons_self _ _)
    have hrest := ih (fun x hx => hpt x (List.mem_cons_of_mem _ hx))
    cases hf : f a with
    | none =>
      rw [hf] at ha
      rw [List.filterMap_cons, List.filterMap_cons, ha, hf]
      exact hrest
    | some b =>
      rw [hf] at ha
      rw [List.filterMap_cons, List.filterMap_cons, ha, hf]
      simp only [Option.map_some, List.map_cons]
      rw [hrest]
      rfl


lemma center_cases_shift (cfg : LayoutConfig) (e : ArchitectureDiagram) :
    center_diagram cfg e = e
    ∨ ∃ ox oy, center_diagram cfg e = shiftAll e ox oy := by
  rcases center_cases cfg e with ⟨h, _⟩ | ⟨ox, oy, h⟩
  · exact Or.inl h
  · exact Or.inr ⟨ox, oy, h⟩

lemma shiftAll_get_children (e : ArchitectureDiagram) (ox oy : Q) (pid : String) :
    (shiftAll e ox oy).get_children pid = e.get_children pid :=
  children_eq_of_skel (skel_map_shift_S e.services ox oy)
    (skel_map_shift_J e.junctions ox oy) (skel_map_shift_G e.groups ox oy) pid

lemma shiftAll_groups_get (e : ArchitectureDiagram) (ox oy : Q) (k : String) :
    dictGet (shiftAll e ox oy).groups k
      = (dictGet e.groups k).map (fun g => { g with x := g.x + ox, y := g.y + oy }) :=
  dictGet_map_snd e.groups
    (fun g => ({ g with x := g.x + ox, y := g.y + oy } : Group)) k

lemma get_node_isSome_of_has (e : ArchitectureDiagram) (cid : String)
    (h : dictHas e.services cid = true ∨ dictHas e.junctions cid = true) :
    (e.get_node cid).isSome = true := by
  unfold ArchitectureDiagram.get_node
  cases hs : dictGet e.services cid with
  | some s => rfl
  | none =>
    cases hj : dictGet e.junctions cid with
    | some j => rfl
    | none =>
      exfalso
      rcases h with h | h
      · rw [← dictGet_isSome_eq_has, hs] at h; cases h
      · rw [← dictGet_isSome_eq_has, hj] at h; cases h

lemma get_node_svc_or_jct (e : ArchitectureDiagram) (cid : String)
    (h : dictHas e.services cid = true ∨ dictHas e.junctions cid = true) :
    (∃ s, dictGet e.services cid = some s ∧ e.get_node cid = some (.svc s))
    ∨ (dictGet e.services cid = none
        ∧ ∃ j, dictGet e.junctions cid = some j ∧ e.get_node cid = some (.jct j)) := by
  cases hs : dictGet e.services cid with
  | some s =>
    left
    exact ⟨s, rfl, by unfold ArchitectureDiagram.get_node; rw [hs]⟩
  | none =>
    cases hj : dictGet e.junctions cid with
    | some j =>
      right
      exact ⟨rfl, j, rfl, by unfold ArchitectureDiagram.get_node; rw [hs, hj]⟩
    | none =>
      exfalso
      rcases h with h | h
      · rw [← dictGet_isSome_eq_has, hs] at h; cases h
      · rw [← dictGet_isSome_eq_has, hj] at h; cases h

lemma shiftAll_get_node_box (e : ArchitectureDiagram) (ox oy : Q) (cid : String)
    (hres : dictHas e.services cid = true ∨ dictHas e.junctions cid = true) :
    ((shiftAll e ox oy).get_node cid).map nodeBox
      = ((e.get_node cid).map nodeBox).map (shiftBox ox oy) := by
  rcases get_node_svc_or_jct e cid hres with ⟨s, hs, hn⟩ | ⟨hs0, j, hj, hn⟩
  · have hsR : dictGet (shiftAll e ox oy).services cid
        = some { s with x := s.x + ox, y := s.y + oy } := by
      have h1 : dictGet (shiftAll e ox oy).services cid
          = (dictGet e.services cid).map
              (fun q => { q with x := q.x + ox, y := q.y + oy }) :=
        dictGet_map_snd e.services
          (fun q => ({ q with x := q.x + ox, y := q.y + oy } : Service)) cid
      rw [h1, hs]
      rfl
    have hnR : (shiftAll e ox oy).get_node cid
        = some (.svc { s with x := s.x + ox, y := s.y + oy }) := by
      unfold ArchitectureDiagram.get_node
      rw [hsR]
    rw [hnR, hn]
    exact congrArg some (nodeBox_shift_svc s ox oy)
  · have hsR : dictGet (shiftAll e ox oy).services cid = none := by
      have h1 : dictGet (shiftAll e ox oy).services cid
          = (dictGet e.services cid).map
              (fun q => { q with x := q.x + ox, y := q.y + oy }) :=
        dictGet_map_snd e.services
          (fun q => ({ q with x := q.x + ox, y := q.y + oy } : Service)) cid
      rw [h1, hs0]
      rfl
    have hjR : dictGet (shiftAll e ox oy).junctions cid
        = some { j with x := j.x + ox, y := j.y + oy } := by
      have h1 : dictGet (shiftAll e ox oy).junctions cid
          = (dictGet e.junctions cid).map
              (fun q => { q with x := q.x + ox, y := q.y + oy }) :=
        dictGet_map_snd e.junctions
          (fun q => ({ q with x := q.x + ox, y := q.y + oy } : Junction)) cid
      rw [h1, hj]
      rfl
    have hnR : (shiftAll e ox oy).get_node cid
        = some (.jct { j with x := j.x + ox, y := j.y + oy }) := by
      unfold ArchitectureDiagram.get_node
      rw [hsR, hjR]
    rw [hnR, hn]
    exact congrArg some (nodeBox_shift_jct j ox oy)

lemma groupSetBounds_self_empty (cfg : LayoutConfig) (e : ArchitectureDiagram)
    (gid : String) (g1 : Group)
    (hg : dictGet e.groups gid = some g1) (hgid : g1.id = gid)
    (hch : e.get_children gid = []) :
    dictGet (groupSetBounds cfg e gid).groups gid
      = some { g1 with
          width := cfg.node_width + cfg.group_padding * 2,
          height := cfg.node_height + cfg.group_padding * 2 } := by
  unfold groupSetBounds
  rw [hg]
  simp only [hgid, hch, List.isEmpty_nil, eq_self_iff_true, if_true]
  exact dictGet_update_list_self gid _ e.groups g1 hg

lemma groupSetBounds_self_boxes (cfg : LayoutConfig) (e : ArchitectureDiagram)
    (gid : String) (g1 : Group) (b : Box)
    (hg : dictGet e.groups gid = some g1) (hgid : g1.id = gid)
    (hne : (e.get_children gid).isEmpty = false)
    (hub : unionBoxes ((e.get_children gid).filterMap
        (fun cid => (e.get_node cid).map nodeBox)) = some b) :
    dictGet (groupSetBounds cfg e gid).groups gid
      = some { g1 with
          x := (b.left + b.right) / 2, y := (b.top + b.bottom) / 2,
          width := (b.right - b.left) + cfg.group_padding * 2,
          height := (b.bottom - b.top) + cfg.group_padding * 2 } := by
  unfold groupSetBounds
  rw [hg]
  simp only [hgid, hne, Bool.false_eq_true, if_false, hub]
  exact dictGet_update_list_self gid _ e.groups g1 hg

/-- Core of C2, after the grid-placement stage: through
_calculate_group_bounds and _center_diagram, a group none of whose
children is a group ends up with the padded union of its children's
final boxes (or the default size if childless). -/
lemma c2core (cfg : LayoutConfig) (d1 : ArchitectureDiagram)
    (gid : String) (g : Group)
    (hndG1 : (d1.groups.map Prod.fst).Nodup)
    (hidG1 : ∀ p ∈ d1.groups, p.2.id = p.1)
    (hidS1 : ∀ p ∈ d1.services, p.2.id = p.1)
    (hidJ1 : ∀ p ∈ d1.junctions, p.2.id = p.1)
    (hng1 : ∀ p ∈ d1.groups, p.2.parent ≠ some gid)
    (hget : dictGet (center_diagram cfg (calculate_group_bounds cfg d1)).groups gid
      = some g) :
    ((center_diagram cfg (calculate_group_bounds cfg d1)).get_children gid = [] →
      g.width = cfg.node_width + cfg.group_padding * 2 ∧
      g.height = cfg.node_height + cfg.group_padding * 2)
    ∧ ((center_diagram cfg (calculate_group_bounds cfg d1)).get_children gid ≠ [] →
      ∃ b, unionBoxes
          (((center_diagram cfg (calculate_group_bounds cfg d1)).get_children gid).filterMap
            (fun cid =>
              ((center_diagram cfg (calculate_group_bounds cfg d1)).get_node cid).map nodeBox))
          = some b ∧
        g.x = (b.left + b.right) / 2 ∧ g.y = (b.top + b.bottom) / 2 ∧
        g.width = (b.right - b.left) + cfg.group_padding * 2 ∧
        g.height = (b.bottom - b.top) + cfg.group_padding * 2) := by
  have hS2 : (calculate_group_bounds cfg d1).services = d1.services :=
    (calc_fold_other cfg (d1.groups.map Prod.fst) d1).1
  have hJ2 : (calculate_group_bounds cfg d1).junctions = d1.junctions :=
    (calc_fold_other cfg (d1.groups.map Prod.fst) d1).2.1
  have hskG2 : skelG (calculate_group_bounds cfg d1).groups = skelG d1.groups :=
    calc_fold_skelG cfg (d1.groups.map Prod.fst) d1 hndG1
  have hres1 := children_resolve d1 gid hidS1 hidJ1 hng1
  have hCh2 : (calculate_group_bounds cfg d1).get_children gid = d1.get_children gid :=
    children_eq_of_skel (by rw [hS2]) (by rw [hJ2]) hskG2 gid
  have hNode2 : ∀ cid ∈ d1.get_children gid,
      (calculate_group_bounds cfg d1).get_node cid = d1.get_node cid :=
    fun cid hc => get_node_eq_of_parts hS2 hJ2 cid (hres1 cid hc)
  have hMain : ∀ g0 : Group,
      dictGet (calculate_group_bounds cfg d1).groups gid = some g0 →
      (d1.get_children gid = [] →
        g0.width = cfg.node_width + cfg.group_padding * 2 ∧
        g0.height = cfg.node_height + cfg.group_padding * 2)
      ∧ (d1.get_children gid ≠ [] →
        ∃ b, unionBoxes ((d1.get_children gid).filterMap
            (fun cid => (d1.get_node cid).map nodeBox)) = some b ∧
          g0.x = (b.left + b.right) / 2 ∧ g0.y = (b.top + b.bottom) / 2 ∧
          g0.width = (b.right - b.left) + cfg.group_padding * 2 ∧
          g0.height = (b.bottom - b.top) + cfg.group_padding * 2) := by
    intro g0 hg0
    have hkey : gid ∈ d1.groups.map Prod.fst := by
      have h1 : (dictGet (calculate_group_bounds cfg d1).groups gid).isSome = true := by
        rw [hg0]; rfl
      rw [dictGet_isSome_eq_has] at h1
      have h2 := (dictHas_iff_mem_keys _ gid).mp h1
      rwa [skelG_keys hskG2] at h2
    obtain ⟨ks1, ks2, hsplit⟩ := List.append_of_mem hkey
    have hnod : (ks1 ++ gid :: ks2).Nodup := by rw [← hsplit]; exact hndG1
    have hnod2 := List.nodup_middle.mp hnod
    have hnotmem : gid ∉ ks1 ++ ks2 := (List.nodup_cons.mp hnod2).1
    have hni1 : gid ∉ ks1 := fun hc => hnotmem (List.mem_append.mpr (Or.inl hc))
    have hni2 : gid ∉ ks2 := fun hc => hnotmem (List.mem_append.mpr (Or.inr hc))
    have hE : calculate_group_bounds cfg d1
        = ks2.foldl (groupSetBounds cfg)
            (groupSetBounds cfg (ks1.foldl (groupSetBounds cfg) d1) gid) := by
      unfold calculate_group_bounds
      rw [hsplit, List.foldl_append, List.foldl_cons]
    have hSM : (ks1.foldl (groupSetBounds cfg) d1).services = d1.services :=
      (calc_fold_other cfg ks1 d1).1
    have hJM : (ks1.foldl (groupSetBounds cfg) d1).junctions = d1.junctions :=
      (calc_fold_other cfg ks1 d1).2.1
    have hskM : skelG (ks1.foldl (groupSetBounds cfg) d1).groups = skelG d1.groups :=
      calc_fold_skelG cfg ks1 d1 hndG1
    have hgetM : dictGet (ks1.foldl (groupSetBounds cfg) d1).groups gid
        = dictGet d1.groups gid := calc_fold_get_ne cfg gid ks1 d1 hni1
    have hsome1 : (dictGet d1.groups gid).isSome = true := by
      rw [dictGet_isSome_eq_has]
      exact (dictHas_iff_mem_keys _ gid).mpr hkey
    obtain ⟨g1, hg1⟩ := Option.isSome_iff_exists.mp hsome1
    have hgid1 : g1.id = gid := by
      obtain ⟨q, hq, hq1, hq2⟩ := dictGet_mem hg1
      rw [← hq2, hidG1 q hq, hq1]
    have hChM : (ks1.foldl (groupSetBounds cfg) d1).get_children gid
        = d1.get_children gid :=
      children_eq_of_skel (by rw [hSM]) (by rw [hJM]) hskM gid
    have hNodeM : ∀ cid ∈ d1.get_children gid,
        (ks1.foldl (groupSetBounds cfg) d1).get_node cid = d1.get_node cid :=
      fun cid hc => get_node_eq_of_parts hSM hJM cid (hres1 cid hc)
    cases hCe : d1.get_children gid with
    | nil =>
      have hstep := groupSetBounds_self_empty cfg (ks1.foldl (groupSetBounds cfg) d1)
        gid g1 (hgetM.trans hg1) hgid1 (hChM.trans hCe)
      have hfin := (calc_fold_get_ne cfg gid ks2
        (groupSetBounds cfg (ks1.foldl (groupSetBounds cfg) d1) gid) hni2).trans hstep
      rw [← hE, hg0] at hfin
      have hg0e := Option.some.inj hfin
      constructor
      · intro _
        rw [hg0e]
        exact ⟨rfl, rfl⟩
      · intro hne
        exact absurd rfl hne
    | cons c0 C' =>
      rw [hCe] at hres1 hNodeM hChM
      obtain ⟨n0, hn0⟩ := Option.isSome_iff_exists.mp
        (get_node_isSome_of_has d1 c0 (hres1 c0 (List.mem_cons_self _ _)))
      have hBL : (c0 :: C').filterMap (fun cid => (d1.get_node cid).map nodeBox)
          = nodeBox n0 :: C'.filterMap (fun cid => (d1.get_node cid).map nodeBox) := by
        simp only [List.filterMap_cons, hn0]
        rfl
      have hub0 : unionBoxes ((c0 :: C').filterMap
            (fun cid => (d1.get_node cid).map nodeBox))
          = some ((C'.filterMap (fun cid => (d1.get_node cid).map nodeBox)).foldl
              boxUnion2 (nodeBox n0)) := by
        rw [hBL]
        rfl
      have hne : ((ks1.foldl (groupSetBounds cfg) d1).get_children gid).isEmpty
          = false := by
        rw [hChM]
        rfl
      have hubM : unionBoxes
            (((ks1.foldl (groupSetBounds cfg) d1).get_children gid).filterMap
              (fun cid => ((ks1.foldl (groupSetBounds cfg) d1).get_node cid).map nodeBox))
          = some ((C'.filterMap (fun cid => (d1.get_node cid).map nodeBox)).foldl
              boxUnion2 (nodeBox n0)) := by
        rw [hChM]
        have hfm : (c0 :: C').filterMap
              (fun cid => ((ks1.foldl (groupSetBounds cfg) d1).get_node cid).map nodeBox)
            = (c0 :: C').filterMap (fun cid => (d1.get_node cid).map nodeBox) :=
          List.filterMap_congr (fun cid hc => by rw [hNodeM cid hc])
        rw [hfm]
        exact hub0
      have hstep := groupSetBounds_self_boxes cfg (ks1.foldl (groupSetBounds cfg) d1)
        gid g1 _ (hgetM.trans hg1) hgid1 hne hubM
      have hfin := (calc_fold_get_ne cfg gid ks2
        (groupSetBounds cfg (ks1.foldl (groupSetBounds cfg) d1) gid) hni2).trans hstep
      rw [← hE, hg0] at hfin
      have hg0e := Option.some.inj hfin
      constructor
      · intro hcc
        exact absurd hcc (List.cons_ne_nil c0 C')
      · intro _
        refine ⟨_, hub0, ?_, ?_, ?_, ?_⟩
        · rw [hg0e]
        · rw [hg0e]
        · rw [hg0e]
        · rw [hg0e]
  rcases center_cases_shift cfg (calculate_group_bounds cfg d1) with hrid | ⟨ox, oy, hr⟩
  · rw [hrid] at hget ⊢
    obtain ⟨hm1, hm2⟩ := hMain g hget
    constructor
    · intro h
      exact hm1 (hCh2.symm.trans h)
    · intro h
      obtain ⟨b, hb, hx, hy, hw, hh⟩ := hm2 (fun hc => h (hCh2.trans hc))
      refine ⟨b, ?_, hx, hy, hw, hh⟩
      rw [hCh2]
      have hfm : (d1.get_children gid).filterMap
            (fun cid => ((calculate_group_bounds cfg d1).get_node cid).map nodeBox)
          = (d1.get_children gid).filterMap
            (fun cid => (d1.get_node cid).map nodeBox) :=
        List.filterMap_congr (fun cid hc => by rw [hNode2 cid hc])
      rw [hfm]
      exact hb
  · rw [hr] at hget ⊢
    have hget2 : dictGet (shiftAll (calculate_group_bounds cfg d1) ox oy).groups gid
        = some g := hget
    rw [shiftAll_groups_get] at hget2
    obtain ⟨g0, hg0, hgsh⟩ := Option.map_eq_some'.mp hget2
    obtain ⟨hm1, hm2⟩ := hMain g0 hg0
    have hChR : (shiftAll (calculate_group_bounds cfg d1) ox oy).get_children gid
        = d1.get_children gid :=
      (shiftAll_get_children _ ox oy gid).trans hCh2
    constructor
    · intro h
      have h0 := hm1 (hChR.symm.trans h)
      rw [← hgsh]
      exact ⟨h0.1, h0.2⟩
    · intro h
      obtain ⟨b, hb, hx, hy, hw, hh⟩ := hm2 (fun hc => h (hChR.trans hc))
      refine ⟨shiftBox ox oy b, ?_, ?_, ?_, ?_, ?_⟩
      · rw [hChR]
        have hpt : ∀ cid ∈ d1.get_children gid,
            ((shiftAll (calculate_group_bounds cfg d1) ox oy).get_node cid).map nodeBox
              = ((fun cid => (d1.get_node cid).map nodeBox) cid).map (shiftBox ox oy) := by
          intro cid hc
          have h1 := shiftAll_get_node_box (calculate_group_bounds cfg d1) ox oy cid
            (by rw [hS2, hJ2]; exact hres1 cid hc)
          rw [h1, hNode2 cid hc]
        rw [filterMap_shift (fun cid => (d1.get_node cid).map nodeBox)
          (fun cid =>
            ((shiftAll (calculate_group_bounds cfg d1) ox oy).get_node cid).map nodeBox)
          (shiftBox ox oy) (d1.get_children gid) hpt]
        rw [unionBoxes_shift, hb]
        rfl
      · rw [← hgsh]
        show g0.x + ox = (b.left + ox + (b.right + ox)) / 2
        rw [hx]
        ring
      · rw [← hgsh]
        show g0.y + oy = (b.top + oy + (b.bottom + oy)) / 2
        rw [hy]
        ring
      · rw [← hgsh]
        show g0.width = b.right + ox - (b.left + ox) + cfg.group_padding * 2
        rw [hw]
        ring
      · rw [← hgsh]
        show g0.height = b.bottom + oy - (b.top + oy) + cfg.group_padding * 2
        rw [hh]
        ring

/-- C2 (corrected): after standard (non-layered) layout, a group with
no group children gets exactly the padded union of its direct
children's final bounding boxes, or the fixed default size if it has
no children at all.  (The nested-group part of the claim is refuted by
c2_counterexample.) -/
theorem c2_group_box_padded_union (cfg : LayoutConfig) (d : ArchitectureDiagram)
    (gid : String) (g : Group)
    (hlay : d.layers = [])
    (hwf : WFDiagram d)
    (hng : ∀ p ∈ d.groups, p.2.parent ≠ some gid)
    (hget : dictGet (layout cfg d).groups gid = some g) :
    ((layout cfg d).get_children gid = [] →
      g.width = cfg.node_width + cfg.group_padding * 2 ∧
      g.height = cfg.node_height + cfg.group_padding * 2)
    ∧ ((layout cfg d).get_children gid ≠ [] →
      ∃ b, unionBoxes (((layout cfg d).get_children gid).filterMap
          (fun cid => ((layout cfg d).get_node cid).map nodeBox)) = some b ∧
        g.x = (b.left + b.right) / 2 ∧ g.y = (b.top + b.bottom) / 2 ∧
        g.width = (b.right - b.left) + cfg.group_padding * 2 ∧
        g.height = (b.bottom - b.top) + cfg.group_padding * 2) := by
  obtain ⟨hndG, hndS, hndJ, hndL, hidG, hidS, hidJ, hidL⟩ := hwf
  have hnl : d.is_layered = false := by
    unfold ArchitectureDiagram.is_layered
    rw [hlay]
    rfl
  have hlayout : layout cfg d
      = center_diagram cfg (calculate_group_bounds cfg
          (apply_grid_positions cfg d ((assign_grid_positions d (build_adjacency d)).1))) := by
    unfold layout
    rw [hnl]
    rfl
  have hpres2 :
      skelG (apply_grid_positions cfg d
        ((assign_grid_positions d (build_adjacency d)).1)).groups = skelG d.groups
      ∧ skelS (apply_grid_positions cfg d
        ((assign_grid_positions d (build_adjacency d)).1)).services = skelS d.services
      ∧ skelJ (apply_grid_positions cfg d
        ((assign_grid_positions d (build_adjacency d)).1)).junctions = skelJ d.junctions
      ∧ (apply_grid_positions cfg d
        ((assign_grid_positions d (build_adjacency d)).1)).edges = d.edges
      ∧ (d.layers = [] → (apply_grid_positions cfg d
        ((assign_grid_positions d (build_adjacency d)).1)).layers = []) :=
    applyGrid_preserves cfg _ _ _ d
  obtain ⟨hskG1, hskS1, hskJ1, _, _⟩ := hpres2
  have hndG1 : ((apply_grid_positions cfg d
      ((assign_grid_positions d (build_adjacency d)).1)).groups.map Prod.fst).Nodup := by
    rw [skelG_keys hskG1]
    exact hndG
  have hidG1 := skelG_ids hskG1 hidG
  have hidS1 := skelS_ids hskS1 hidS
  have hidJ1 := skelJ_ids hskJ1 hidJ
  have hng1 := skelG_parents hskG1 hng
  rw [hlayout] at hget ⊢
  exact c2core cfg (apply_grid_positions cfg d
    ((assign_grid_positions d (build_adjacency d)).1)) gid g
    hndG1 hidG1 hidS1 hidJ1 hng1 hget


lemma gframe_refl (d : ArchitectureDiagram) : GFrame d d := ⟨rfl, rfl, rfl⟩

lemma gframe_trans {a b c : ArchitectureDiagram}
    (h1 : GFrame a b) (h2 : GFrame b c) : GFrame a c :=
  ⟨h1.1.trans h2.1, h1.2.1.trans h2.2.1, h1.2.2.trans h2.2.2⟩

lemma skelG_of_skelGW {gs gs' : Dict Group} (h : skelGW gs' = skelGW gs) :
    skelG gs' = skelG gs := by
  have hrepr : ∀ gs0 : Dict Group,
      skelG gs0 = (skelGW gs0).map (fun t => (t.1, t.2.1, t.2.2.1)) := by
    intro gs0
    unfold skelG skelGW
    rw [List.map_map]
    rfl
  rw [hrepr, hrepr, h]

lemma skel_map_xy_GW (gs : Dict Group) (n : String) (x y : Q) :
    skelGW (gs.map (fun p =>
      if p.1 = n then (p.1, { p.2 with x := x, y := y }) else p)) = skelGW gs := by
  unfold skelGW
  rw [List.map_map]
  apply List.map_congr_left
  intro p _
  by_cases hp : p.1 = n <;> simp [hp]

lemma setNodeXY_gframe (d : ArchitectureDiagram) (n : String) (x y : Q) :
    GFrame (setNodeXY d n x y) d := by
  unfold setNodeXY
  split_ifs with h1 h2 h3 h4
  · exact ⟨rfl, skel_map_xy_S _ _ _ _, rfl⟩
  · exact ⟨rfl, rfl, skel_map_xy_J _ _ _ _⟩
  · exact ⟨skel_map_xy_GW _ _ _ _, rfl, rfl⟩
  · exact ⟨rfl, rfl, rfl⟩
  · exact ⟨rfl, rfl, rfl⟩

lemma foldl_gframe {β : Type} (f : ArchitectureDiagram → β → ArchitectureDiagram)
    (hf : ∀ dd b, GFrame (f dd b) dd) :
    ∀ (l : List β) (d : ArchitectureDiagram), GFrame (l.foldl f d) d := by
  intro l
  induction l with
  | nil => intro d; exact gframe_refl d
  | cons b t ih =>
    intro d
    rw [List.foldl_cons]
    exact gframe_trans (ih (f d b)) (hf d b)

lemma layoutLayerStep_gframe (cfg : LayoutConfig) (saw : Q)
    (st : ArchitectureDiagram × Q) (layer : Layer) :
    GFrame (layoutLayerStep cfg saw st layer).1 st.1 := by
  obtain ⟨dS, y0⟩ := st
  unfold layoutLayerStep
  simp only []
  cases hc : dS.get_children layer.id with
  | nil => exact ⟨rfl, rfl, rfl⟩
  | cons c0 rest =>
    cases rest with
    | nil => exact gframe_trans (setNodeXY_gframe _ c0 _ _) ⟨rfl, rfl, rfl⟩
    | cons c1 cs =>
      refine gframe_trans (foldl_gframe _ ?_ _ _) ⟨rfl, rfl, rfl⟩
      intro dd b
      exact setNodeXY_gframe dd b.2 _ _

lemma dictGet_setxy_ne (n gid : String) (x y : Q) (hne : gid ≠ n) :
    ∀ (gs : Dict Group),
      dictGet (gs.map (fun p =>
        if p.1 = n then (p.1, { p.2 with x := x, y := y }) else p)) gid
        = dictGet gs gid := by
  intro gs
  induction gs with
  | nil => rfl
  | cons p t ih =>
    unfold dictGet at ih ⊢
    by_cases hp : p.1 = gid
    · rw [List.map_cons]
      have hhead : ((if p.1 = n then (p.1, { p.2 with x := x, y := y }) else p)).1
          = p.1 := by
        split <;> rfl
      rw [List.find?_cons_of_pos _ (by simpa [hhead] using hp),
        List.find?_cons_of_pos _ (by simpa using hp)]
      have hpn : ¬ p.1 = n := fun hc => hne (hp.symm.trans hc)
      simp [if_neg hpn]
    · rw [List.map_cons]
      have hhead : ((if p.1 = n then (p.1, { p.2 with x := x, y := y }) else p)).1
          = p.1 := by
        split <;> rfl
      rw [List.find?_cons_of_neg _ (by simpa [hhead] using hp),
        List.find?_cons_of_neg _ (by simpa using hp)]
      exact ih

lemma setNodeXY_safe_get (d d0 : ArchitectureDiagram) (gid n : String) (x y : Q)
    (hfr : GFrame d d0)
    (hsafe : n = gid →
      dictHas d0.services n = true ∨ dictHas d0.junctions n = true) :
    dictGet (setNodeXY d n x y).groups gid = dictGet d.groups gid := by
  unfold setNodeXY
  split_ifs with h1 h2 h3 h4
  · rfl
  · rfl
  · have hn : n ≠ gid := by
      intro he
      rcases hsafe he with h | h
      · apply h1
        rw [dictHas_iff_mem_keys, skelS_keys hfr.2.1]
        exact (dictHas_iff_mem_keys _ n).mp h
      · apply h2
        rw [dictHas_iff_mem_keys, skelJ_keys hfr.2.2]
        exact (dictHas_iff_mem_keys _ n).mp h
    exact dictGet_setxy_ne n gid x y (fun hc => hn hc.symm) d.groups
  · rfl
  · rfl

lemma foldl_setNodeXY_get {β : Type} (nf : β → String) (xf yf : β → Q)
    (d0 : ArchitectureDiagram) (gid : String) :
    ∀ (l : List β) (d : ArchitectureDiagram), GFrame d d0 →
      (∀ b ∈ l, nf b = gid →
        dictHas d0.services (nf b) = true ∨ dictHas d0.junctions (nf b) = true) →
      dictGet ((l.foldl (fun dd b => setNodeXY dd (nf b) (xf b) (yf b)) d)).groups gid
        = dictGet d.groups gid := by
  intro l
  induction l with
  | nil => intro d _ _; rfl
  | cons b t ih =>
    intro d hfr hs
    rw [List.foldl_cons]
    exact (ih (setNodeXY d (nf b) (xf b) (yf b))
      (gframe_trans (setNodeXY_gframe d (nf b) (xf b) (yf b)) hfr)
      (fun b' hb' => hs b' (List.mem_cons_of_mem _ hb'))).trans
      (setNodeXY_safe_get d d0 gid (nf b) (xf b) (yf b) hfr
        (hs b (List.mem_cons_self _ _)))

lemma layoutLayerStep_get_gid (cfg : LayoutConfig) (saw : Q)
    (st : ArchitectureDiagram × Q) (layer : Layer) (gid : String)
    (d0 : ArchitectureDiagram) (hfr : GFrame st.1 d0)
    (hsafe : ∀ cid ∈ d0.get_children layer.id, cid = gid →
      dictHas d0.services cid = true ∨ dictHas d0.junctions cid = true) :
    dictGet (layoutLayerStep cfg saw st layer).1.groups gid
      = dictGet st.1.groups gid := by
  obtain ⟨dS, y0⟩ := st
  have hchd : dS.get_children layer.id = d0.get_children layer.id :=
    children_eq_of_skel hfr.2.1 hfr.2.2 (skelG_of_skelGW hfr.1) layer.id
  unfold layoutLayerStep
  simp only []
  cases hc : dS.get_children layer.id with
  | nil => rfl
  | cons c0 rest =>
    have hch0 : d0.get_children layer.id = c0 :: rest := hchd.symm.trans hc
    cases rest with
    | nil =>
      exact setNodeXY_safe_get _ d0 gid c0 _ _ hfr
        (hsafe c0 (by rw [hch0]; exact List.mem_cons_self _ _))
    | cons c1 cs =>
      exact foldl_setNodeXY_get _ _ _ d0 gid ((c0 :: c1 :: cs).enum) _ hfr
        (fun b hb hbg => hsafe b.2
          (by rw [hch0]; exact List.snd_mem_of_mem_enum hb) hbg)

lemma foldl_layerstep_gframe (cfg : LayoutConfig) (saw : Q) :
    ∀ (ls : List Layer) (st : ArchitectureDiagram × Q),
      GFrame (ls.foldl (layoutLayerStep cfg saw) st).1 st.1 := by
  intro ls
  induction ls with
  | nil => intro st; exact gframe_refl st.1
  | cons l t ih =>
    intro st
    rw [List.foldl_cons]
    exact gframe_trans (ih (layoutLayerStep cfg saw st l))
      (layoutLayerStep_gframe cfg saw st l)

lemma foldl_layerstep_get (cfg : LayoutConfig) (saw : Q)
    (d0 : ArchitectureDiagram) (gid : String) :
    ∀ (ls : List Layer) (st : ArchitectureDiagram × Q), GFrame st.1 d0 →
      (∀ l ∈ ls, ∀ cid ∈ d0.get_children l.id, cid = gid →
        dictHas d0.services cid = true ∨ dictHas d0.junctions cid = true) →
      dictGet (ls.foldl (layoutLayerStep cfg saw) st).1.groups gid
        = dictGet st.1.groups gid := by
  intro ls
  induction ls with
  | nil => intro st _ _; rfl
  | cons l t ih =>
    intro st hfr hs
    rw [List.foldl_cons]
    exact (ih (layoutLayerStep cfg saw st l)
      (gframe_trans (layoutLayerStep_gframe cfg saw st l) hfr)
      (fun l' hl' => hs l' (List.mem_cons_of_mem _ hl'))).trans
      (layoutLayerStep_get_gid cfg saw st l gid d0 hfr
        (hs l (List.mem_cons_self _ _)))

lemma mem_orderedInsertLayer {a x : Layer} :
    ∀ {l : List Layer}, a ∈ orderedInsertLayer x l → a = x ∨ a ∈ l := by
  intro l
  induction l with
  | nil =>
    intro h
    exact Or.inl (by simpa [orderedInsertLayer] using h)
  | cons y t ih =>
    intro h
    unfold orderedInsertLayer at h
    by_cases hc : x.order ≤ y.order
    · rw [if_pos hc] at h
      rcases List.mem_cons.mp h with h1 | h2
      · exact Or.inl h1
      · exact Or.inr h2
    · rw [if_neg hc] at h
      rcases List.mem_cons.mp h with h1 | h2
      · exact Or.inr (h1 ▸ List.mem_cons_self _ _)
      · rcases ih h2 with h3 | h4
        · exact Or.inl h3
        · exact Or.inr (List.mem_cons_of_mem _ h4)

lemma mem_insertionSortLayers {a : Layer} :
    ∀ {l : List Layer}, a ∈ insertionSortLayers l → a ∈ l := by
  intro l
  induction l with
  | nil => intro h; cases h
  | cons y t ih =>
    intro h
    unfold insertionSortLayers at h
    rcases mem_orderedInsertLayer h with h1 | h2
    · exact h1 ▸ List.mem_cons_self _ _
    · exact List.mem_cons_of_mem _ (ih h2)

lemma dictGet_eq_of_mem_nodup {α : Type} :
    ∀ {m : Dict α}, (m.map Prod.fst).Nodup →
      ∀ {q : String × α}, q ∈ m → dictGet m q.1 = some q.2 := by
  intro m
  induction m with
  | nil => intro _ q hq; cases hq
  | cons p t ih =>
    intro hnd q hq
    rw [List.map_cons, List.nodup_cons] at hnd
    rcases List.mem_cons.mp hq with he | ht
    · subst he
      unfold dictGet
      rw [List.find?_cons_of_pos _ (by simp)]
      rfl
    · have hne : ¬ p.1 = q.1 := by
        intro hc
        exact hnd.1 (hc ▸ List.mem_map.mpr ⟨q, ht, rfl⟩)
      unfold dictGet at ih ⊢
      rw [List.find?_cons_of_neg _ (by simpa using hne)]
      exact ih hnd.2 ht

/-- C10 (corrected): in layered mode, layout never changes any group's
key, id, parent, width or height; and a group whose parent is not a
layer is left entirely unchanged, position included.  (The claim that
x and y are also always untouched is refuted by c10_counterexample: a
group that is a direct child of a layer has its x and y written.) -/
theorem c10_layered_groups_frame (cfg : LayoutConfig) (d : ArchitectureDiagram)
    (hlay : d.layers ≠ [])
    (hwf : WFDiagram d) :
    skelGW (layout cfg d).groups = skelGW d.groups
    ∧ ∀ gid g, dictGet d.groups gid = some g →
        (∀ q ∈ d.layers, g.parent ≠ some q.2.id) →
        dictGet (layout cfg d).groups gid = some g := by
  obtain ⟨hndG, hndS, hndJ, hndL, hidG, hidS, hidJ, hidL⟩ := hwf
  have hl : d.is_layered = true := by
    unfold ArchitectureDiagram.is_layered
    exact decide_eq_true (List.length_pos.mpr hlay)
  have hlayout : layout cfg d = layout_layered cfg d := by
    unfold layout
    rw [hl]
    rfl
  rw [hlayout]
  have key1 : GFrame (layout_layered cfg d) d :=
    foldl_layerstep_gframe cfg _ (get_layers_ordered d) (d, cfg.canvas_padding)
  constructor
  · exact key1.1
  · intro gid g hg hnp
    have hs : ∀ l ∈ get_layers_ordered d, ∀ cid ∈ d.get_children l.id,
        cid = gid →
        dictHas d.services cid = true ∨ dictHas d.junctions cid = true := by
      intro l hl0 cid hcid hcg
      subst hcg
      unfold ArchitectureDiagram.get_children at hcid
      rw [List.mem_append, List.mem_append] at hcid
      rcases hcid with (hsv | hjc) | hgr
      · left
        obtain ⟨p, hp, hpid⟩ := List.mem_map.mp hsv
        have hpmem := List.mem_of_mem_filter hp
        apply (dictHas_iff_mem_keys _ _).mpr
        rw [← hpid, hidS p hpmem]
        exact List.mem_map.mpr ⟨p, hpmem, rfl⟩
      · right
        obtain ⟨p, hp, hpid⟩ := List.mem_map.mp hjc
        have hpmem := List.mem_of_mem_filter hp
        apply (dictHas_iff_mem_keys _ _).mpr
        rw [← hpid, hidJ p hpmem]
        exact List.mem_map.mpr ⟨p, hpmem, rfl⟩
      · exfalso
        obtain ⟨p, hp, hpid⟩ := List.mem_map.mp hgr
        obtain ⟨hpmem, hcond⟩ := List.mem_filter.mp hp
        simp only [decide_eq_true_eq] at hcond
        have hkey : p.1 = cid := (hidG p hpmem).symm.trans hpid
        have hpg : dictGet d.groups cid = some p.2 := by
          rw [← hkey]
          exact dictGet_eq_of_mem_nodup hndG hpmem
        have hpe : p.2 = g := by
          rw [hpg] at hg
          exact Option.some.inj hg
        have hlmem : l ∈ d.layers.map Prod.snd :=
          mem_insertionSortLayers hl0
        obtain ⟨q, hq, hqe⟩ := List.mem_map.mp hlmem
        apply hnp q hq
        rw [← hpe, hcond, hqe]
    have h2 : dictGet (layout_layered cfg d).groups gid = dictGet d.groups gid :=
      foldl_layerstep_get cfg _ d gid (get_layers_ordered d)
        (d, cfg.canvas_padding) (gframe_refl d) hs
    exact h2.trans hg

/-- C10 counterexample: in the layered diagram with a group as a
layer's direct child, layout does write the group's x and y (here the
group moves from (0,0) to (330,120)), so group positions are not left
exactly as before the call. -/
theorem c10_counterexample :
    (dictGet exLayerGroupChild.groups "g").map Group.x = some 0
    ∧ (dictGet (layout {} exLayerGroupChild).groups "g").map Group.x = some 330
    ∧ dictGet (layout {} exLayerGroupChild).groups "g"
      ≠ dictGet exLayerGroupChild.groups "g" := by
  refine ⟨by decide, by decide, by decide⟩

/-- C10 witness: exLayeredPlain is layered and well-formed, and its
group "h", whose parent is no layer, is returned by layout exactly as
parsed. -/
theorem c10_layered_groups_frame_witness :
    exLayeredPlain.layers ≠ []
    ∧ dictGet (layout {} exLayeredPlain).groups "h"
      = some { id := "h", icon := none, label := none, parent := none,
               x := 0, y := 0, width := 0, height := 0 } :=
  ⟨by decide,
   (c10_layered_groups_frame {} exLayeredPlain (by decide) (by decide)).2 "h"
     { id := "h", icon := none, label := none, parent := none,
       x := 0, y := 0, width := 0, height := 0 } (by decide) (by decide)⟩

/-- C2 counterexample: with nested groups, the outer group "a" (with
only the group "b" as child) keeps the stale bounds computed before
"b" got its own: its width is 80, while the padded union of the
child's final box has width (170 - 10) + 40*2 = 240. -/
theorem c2_counterexample :
    (layout {} exNestedGroups).get_children "a" = ["b"]
    ∧ unionBoxes (((layout {} exNestedGroups).get_children "a").filterMap
        (fun cid => ((layout {} exNestedGroups).get_node cid).map nodeBox))
      = some { left := 10, top := 10, right := 170, bottom := 170 }
    ∧ (dictGet (layout {} exNestedGroups).groups "a").map Group.width = some 80
    ∧ ((170 : Q) - 10) + ({} : LayoutConfig).group_padding * 2 ≠ 80 := by
  refine ⟨by decide, by decide, by decide, by decide⟩

/-- C2 witness: the flat group "g" of exFlatGroup with two service
children ends up at the padded union of their boxes. -/
theorem c2_group_box_padded_union_witness :
    dictGet (layout {} exFlatGroup).groups "g"
      = some { id := "g", icon := none, label := none, parent := none,
               x := 190, y := 90, width := 360, height := 160 }
    ∧ (((layout {} exFlatGroup).get_children "g" = [] →
        (360 : Q) = ({} : LayoutConfig).node_width
          + ({} : LayoutConfig).group_padding * 2 ∧
        (160 : Q) = ({} : LayoutConfig).node_height
          + ({} : LayoutConfig).group_padding * 2)
      ∧ ((layout {} exFlatGroup).get_children "g" ≠ [] →
        ∃ b, unionBoxes (((layout {} exFlatGroup).get_children "g").filterMap
            (fun cid => ((layout {} exFlatGroup).get_node cid).map nodeBox))
          = some b ∧
          (190 : Q) = (b.left + b.right) / 2 ∧ (90 : Q) = (b.top + b.bottom) / 2 ∧
          (360 : Q) = (b.right - b.left) + ({} : LayoutConfig).group_padding * 2 ∧
          (160 : Q) = (b.bottom - b.top) + ({} : LayoutConfig).group_padding * 2)) :=
  ⟨by decide,
   c2_group_box_padded_union {} exFlatGroup "g"
     { id := "g", icon := none, label := none, parent := none,
       x := 190, y := 90, width := 360, height := 160 }
     (by decide) (by decide) (by decide) (by decide)⟩


end Arch
